import Mathlib

/-!
Verification development for the mux framing codec, SOCKS5 parser, per-channel
state machine and session dispatcher of a reverse SOCKS5 proxy client.

Bytes are modelled as `Nat` values (intended range `0 ≤ b < 256`); byte buffers
as `List Nat`. Machine integer wrap-around is made explicit with `% 2^32`
(`U32`) where the C++ code performs `uint32_t` arithmetic that can overflow.
All recursion is structural (fuel-based where the source uses `while` loops),
so every definition evaluates by kernel reduction.
-/

/-- Modulus of `uint32_t` arithmetic. -/
def U32 : Nat := 4294967296

/-- Little-endian bytes of a 32-bit value, as written by `memcpy` of a
`uint32_t` field of the packed `FrameHeader` struct. -/
def le32 (v : Nat) : List Nat :=
  [v % 256, v / 256 % 256, v / 65536 % 256, v / 16777216 % 256]

/-- Read a 32-bit little-endian value from four bytes. -/
def rd32 (b0 b1 b2 b3 : Nat) : Nat :=
  b0 + 256 * b1 + 65536 * b2 + 16777216 * b3

/-- `FrameHeader`: the packed 8-byte wire header (type, flags, channel_id,
payload_length), fields held as `Nat` (uint8/uint8/uint16/uint32 in C++). -/
structure FrameHeader where
  type : Nat
  flags : Nat
  channel_id : Nat
  payload_length : Nat
deriving DecidableEq, Repr

/-- A decoded frame: header plus payload, as in `struct Frame`. -/
structure Frame where
  header : FrameHeader
  payload : List Nat
deriving DecidableEq, Repr

/-- `FRAME_HEADER_SIZE` (8) plus `FRAME_MAX_PAYLOAD` (65536): capacity of the
codec's accumulation buffer `m_buffer`. -/
def FRAME_BUFFER_CAPACITY : Nat := 65544

/-- Maximum payload `FRAME_MAX_PAYLOAD`. -/
def FRAME_MAX_PAYLOAD : Nat := 65536

/-- Parse the 8-byte header at the front of the buffer, little-endian, as the
`memcpy(&hdr, m_buffer.data(), FRAME_HEADER_SIZE)` does. -/
def parseHeader (buf : List Nat) : FrameHeader :=
  { type := buf.getD 0 0
    flags := buf.getD 1 0
    channel_id := buf.getD 2 0 + 256 * buf.getD 3 0
    payload_length := rd32 (buf.getD 4 0) (buf.getD 5 0) (buf.getD 6 0) (buf.getD 7 0) }

/-- Result of the inner parse loop of `FrameCodec::Feed`: either all complete
frames plus the remaining (incomplete) bytes, or the frames parsed before a
header with `payload_length > FRAME_MAX_PAYLOAD` was seen (the error path that
sets `m_used = 0` and returns). -/
inductive ParseResult where
  | ok (frames : List Frame) (rest : List Nat)
  | err (frames : List Frame)
deriving DecidableEq, Repr

/-- Fuelled version of the inner `while (m_used >= FRAME_HEADER_SIZE)` loop of
`FrameCodec::Feed`: parse a header, reject oversized payloads, wait if the
payload is incomplete, otherwise emit the frame and shift. One unit of fuel
per parsed frame; `buf.length` fuel always suffices (each frame consumes at
least 8 bytes). -/
def parseLoopF : Nat → List Nat → ParseResult
  | 0, buf => .ok [] buf
  | fuel + 1, buf =>
    if buf.length < 8 then .ok [] buf
    else
      let hdr := parseHeader buf
      if hdr.payload_length > FRAME_MAX_PAYLOAD then .err []
      else if buf.length < 8 + hdr.payload_length then .ok [] buf
      else
        let fr : Frame := ⟨hdr, (buf.drop 8).take hdr.payload_length⟩
        match parseLoopF fuel (buf.drop (8 + hdr.payload_length)) with
        | .ok fs rest => .ok (fr :: fs) rest
        | .err fs => .err (fr :: fs)

/-- The inner parse loop with sufficient fuel. -/
def parseLoop (buf : List Nat) : ParseResult :=
  parseLoopF buf.length buf

/-- Fuelled version of the outer `while (offset < len)` loop of
`FrameCodec::Feed`: copy `min(avail, space)` input bytes into the accumulation
buffer (capacity `FRAME_BUFFER_CAPACITY`), run the inner parse loop, repeat.
On the oversize error the whole call returns with the buffer discarded
(`m_used = 0`), dropping the rest of this call's input. -/
def feedOuter : Nat → List Nat → List Nat → List Frame → List Nat × List Frame
  | 0, buf, _, acc => (buf, acc)
  | fuel + 1, buf, input, acc =>
    if input.isEmpty then (buf, acc)
    else
      let space := FRAME_BUFFER_CAPACITY - buf.length
      let toCopy := min input.length space
      let buf1 := buf ++ input.take toCopy
      let input1 := input.drop toCopy
      match parseLoop buf1 with
      | .err fs => ([], acc ++ fs)
      | .ok fs rest => feedOuter fuel rest input1 (acc ++ fs)

namespace FrameCodec

/-- `FrameCodec::Feed`: the codec state is the accumulation buffer (the first
`m_used` bytes of `m_buffer`); returns the new state and the frames appended
to `out_frames` by this call. The fuel `2 * input.length + 2` covers every
iteration of the outer loop (each iteration either copies at least one byte or
is immediately preceded by one that freed buffer space). -/
def Feed (buf input : List Nat) : List Nat × List Frame :=
  feedOuter (2 * input.length + 2) buf input []

/-- `FrameCodec::Encode`: 8-byte little-endian header followed by the payload.
All call sites pass `payload_len = payload.size()`, so the model takes the
payload list and writes its length; the `static_cast<uint8_t>`/`uint16_t`
field stores are the `% 256` reductions. -/
def Encode (type flags channel_id : Nat) (payload : List Nat) : List Nat :=
  [type % 256, flags % 256, channel_id % 256, channel_id / 256 % 256]
    ++ le32 payload.length ++ payload

/-- `FrameCodec::BuildChannelOpenAck`. -/
def BuildChannelOpenAck (channel_id : Nat) : List Nat := Encode 2 0 channel_id []

/-- `FrameCodec::BuildChannelRequestAck`. -/
def BuildChannelRequestAck (channel_id : Nat) (data : List Nat) : List Nat :=
  Encode 4 0 channel_id data

/-- `FrameCodec::BuildData`. -/
def BuildData (channel_id : Nat) (data : List Nat) : List Nat :=
  Encode 5 0 channel_id data

/-- `FrameCodec::BuildChannelClose`. -/
def BuildChannelClose (channel_id flags : Nat) : List Nat :=
  Encode 6 flags channel_id []

/-- `FrameCodec::BuildChannelCloseAck`. -/
def BuildChannelCloseAck (channel_id : Nat) : List Nat := Encode 7 0 channel_id []

/-- `FrameCodec::BuildPing`. -/
def BuildPing : List Nat := Encode 8 0 0 []

/-- `FrameCodec::BuildPong`. -/
def BuildPong : List Nat := Encode 9 0 0 []

/-- `FrameCodec::BuildWindowUpdate`: 4-byte little-endian increment payload. -/
def BuildWindowUpdate (channel_id increment : Nat) : List Nat :=
  Encode 10 0 channel_id (le32 increment)

/-- Successive `Feed` calls on the same codec (one per received transport
chunk), accumulating the emitted frames in order. -/
def feedChunks (buf : List Nat) (chunks : List (List Nat)) : List Nat × List Frame :=
  chunks.foldl (fun st c =>
    let r := Feed st.1 c
    (r.1, st.2 ++ r.2)) (buf, [])

end FrameCodec

/-- `ErrorCode` from `common.h` (no exceptions; plain enum). -/
inductive ErrorCode where
  | Success
  | InvalidArgument
  | OutOfMemory
  | SocketError
  | ConnectionReset
  | ConnectionRefused
  | ConnectionTimeout
  | HostUnreachable
  | NetworkUnreachable
  | DnsResolutionFailed
  | SslHandshakeFailed
  | SslCertificateError
  | SslEncryptError
  | SslDecryptError
  | SslDisconnected
  | ProtocolError
  | BufferTooSmall
  | ChannelNotFound
  | ChannelClosed
  | WindowExhausted
  | Socks5AuthFailure
  | Socks5UnsupportedCommand
  | Socks5UnsupportedAddressType
  | Shutdown
  | IoIncomplete
deriving DecidableEq, Repr

namespace Socks5

/-- `Socks5::ConnectRequest`: address type, host string (for logging and DNS),
preserved raw address bytes, and port. In C++ the scalar fields of a
default-constructed `ConnectRequest` are indeterminate; callers in scope only
read fields the parser has written. -/
structure ConnectRequest where
  atyp : Nat
  host : String
  ipv4 : List Nat
  ipv6 : List Nat
  port : Nat
deriving DecidableEq, Repr

/-- A `ConnectRequest` before any field was written by the parser. -/
def emptyConnectRequest : ConnectRequest :=
  { atyp := 0, host := "", ipv4 := [0, 0, 0, 0], ipv6 := List.replicate 16 0, port := 0 }

/-- `Socks5::ParseMethodRequest`: returns bytes consumed (`0` incomplete, `-1`
malformed) and the `supports_no_auth` out-parameter (initialised `false`,
set when `AUTH_NONE` (0) occurs among the offered methods). -/
def ParseMethodRequest (data : List Nat) : Int × Bool :=
  if data.length < 2 then (0, false)
  else if data.getD 0 0 ≠ 5 then (-1, false)
  else
    let nmethods := data.getD 1 0
    let total := 2 + nmethods
    if data.length < total then (0, false)
    else (Int.ofNat total, ((data.drop 2).take nmethods).contains 0)

/-- `Socks5::BuildMethodResponse`: `{VERSION, method}`. -/
def BuildMethodResponse (method : Nat) : List Nat := [5, method]

/-- One lowercase hexadecimal digit. -/
def hexDigit (d : Nat) : Char :=
  if d < 10 then Char.ofNat (48 + d) else Char.ofNat (87 + d)

/-- `%02x` of one byte. -/
def hex2 (n : Nat) : List Char := [hexDigit (n / 16 % 16), hexDigit (n % 16)]

/-- The dotted-decimal string `sprintf_s(buf, "%u.%u.%u.%u", ...)` builds from
the four IPv4 address bytes. -/
def ipv4String (a b c d : Nat) : String :=
  toString a ++ ("." : String) ++ toString b ++ ("." : String)
    ++ toString c ++ ("." : String) ++ toString d

/-- The string `out.host.assign(...)` builds from the raw domain bytes. -/
def domainString (name : List Nat) : String :=
  String.mk (name.map fun b => Char.ofNat b)

/-- The hex string `sprintf_s(buf, "%02x%02x:...")` builds from the sixteen
IPv6 address bytes (two bytes per colon-separated group). -/
def ipv6String (bs : List Nat) : String :=
  String.mk (String.toList (String.intercalate (":" : String)
    ((List.range 8).map fun i =>
      String.mk (hex2 (bs.getD (2 * i) 0) ++ hex2 (bs.getD (2 * i + 1) 0)))))

/-- `Socks5::ParseConnectRequest`: returns bytes consumed (`0` incomplete,
`-1` malformed) and the threaded `out` parameter, whose fields are written in
the order the C++ writes them (`out.atyp` is assigned before the address-type
switch, so it is mutated even on some incomplete/malformed returns). For a
command byte other than CONNECT the code still returns `total` (the two return
statements at the end of the C++ function are identical). -/
def ParseConnectRequest (data : List Nat) (out0 : ConnectRequest) : Int × ConnectRequest :=
  if data.length < 4 then (0, out0)
  else if data.getD 0 0 ≠ 5 then (-1, out0)
  else
    let cmd := data.getD 1 0
    let atyp := data.getD 3 0
    let out1 := { out0 with atyp := atyp }
    let addrLenRes : Option Nat :=
      if atyp = 1 then some 4
      else if atyp = 3 then
        (if data.length < 5 then none else some (1 + data.getD 4 0))
      else if atyp = 4 then some 16
      else none
    match addrLenRes with
    | none =>
      if atyp = 3 then (0, out1) else (-1, out1)
    | some addr_len =>
      let total := 4 + addr_len + 2
      if data.length < total then (0, out1)
      else
        let out2 :=
          if atyp = 1 then
            let bytes := (data.drop 4).take 4
            { out1 with
              ipv4 := bytes
              host := ipv4String (bytes.getD 0 0) (bytes.getD 1 0) (bytes.getD 2 0) (bytes.getD 3 0) }
          else if atyp = 3 then
            let domain_len := data.getD 4 0
            { out1 with host := domainString ((data.drop 5).take domain_len) }
          else
            let bytes := (data.drop 4).take 16
            { out1 with ipv6 := bytes, host := ipv6String bytes }
        let port_offset := 4 + addr_len
        let out3 := { out2 with
          port := (256 * data.getD port_offset 0 + data.getD (port_offset + 1) 0) % 65536 }
        if cmd ≠ 1 then
          (Int.ofNat total, out3)
        else
          (Int.ofNat total, out3)

/-- `Socks5::BuildConnectReply` with the default arguments used at every call
site in `channel.cpp`: `atyp = ATYP_IPV4`, `bind_addr = nullptr`,
`bind_port = 0`, giving `{5, rep, 0, 1, 0,0,0,0, 0,0}`. -/
def BuildConnectReply (reply_code : Nat) : List Nat :=
  [5, reply_code, 0, 1, 0, 0, 0, 0, 0, 0]

/-- `Socks5::ErrorCodeToSocks5Reply`. -/
def ErrorCodeToSocks5Reply (ec : ErrorCode) : Nat :=
  match ec with
  | .Success => 0
  | .NetworkUnreachable => 3
  | .HostUnreachable => 4
  | .ConnectionRefused => 5
  | .ConnectionTimeout => 6
  | _ => 1

end Socks5

/-- `ChannelState` from `channel.h`. -/
inductive ChannelState where
  | Opening
  | Requesting
  | Connecting
  | Relaying
  | Closing
  | Closed
deriving DecidableEq, Repr

/-- Calls a channel makes on its collaborators: frame sends through the
session (`m_session->Send...`) and operations on its outbound TCP connection
(`m_target`), in program order. -/
inductive ChanEff where
  | sendOpenAck (channel_id : Nat)
  | sendRequestAck (channel_id : Nat) (payload : List Nat)
  | sendData (channel_id : Nat) (payload : List Nat)
  | sendClose (channel_id : Nat) (flags : Nat)
  | sendCloseAck (channel_id : Nat)
  | sendWindowUpdate (channel_id : Nat) (increment : Nat)
  | tcpConnect (host : String) (port : Nat)
  | tcpStartReading
  | tcpSend (bytes : List Nat)
  | tcpClose
deriving DecidableEq, Repr

/-- `FRAME_FLAG_FIN`. -/
def FRAME_FLAG_FIN : Nat := 1

/-- `FRAME_FLAG_RST`. -/
def FRAME_FLAG_RST : Nat := 2

/-- The per-channel record from `channel.h`; `target` models presence of the
owned `m_target` TCP connection. -/
structure Channel where
  id : Nat
  state : ChannelState
  socks5Buf : List Nat
  methodDone : Bool
  connectReq : Socks5.ConnectRequest
  target : Option Unit
  sendWindow : Nat
  recvWindow : Nat
  recvWindowInitial : Nat
  recvConsumed : Nat
deriving DecidableEq, Repr

namespace Channel

/-- The `Channel` constructor: state `Opening`, both windows at the configured
window size, empty SOCKS5 buffer, no target. -/
def mk0 (id window_size : Nat) : Channel :=
  { id := id
    state := .Opening
    socks5Buf := []
    methodDone := false
    connectReq := Socks5.emptyConnectRequest
    target := none
    sendWindow := window_size
    recvWindow := window_size
    recvWindowInitial := window_size
    recvConsumed := 0 }

/-- `Channel::OnOpen`: set state `Opening`, send `CHANNEL_OPEN_ACK`, move to
`Requesting`. -/
def OnOpen (ch : Channel) : Channel × List ChanEff :=
  ({ ch with state := .Requesting }, [.sendOpenAck ch.id])

/-- `Channel::OnWindowUpdate`: `m_send_window += increment` in `uint32_t`. -/
def OnWindowUpdate (ch : Channel) (increment : Nat) : Channel :=
  { ch with sendWindow := (ch.sendWindow + increment) % U32 }

/-- `Channel::OnData`: drop unless `Relaying`; add the payload size to
`recv_consumed` (uint32), forward to the target if present, and when
`recv_consumed >= recv_window_initial / 2` emit a `WINDOW_UPDATE` for the
consumed amount, add it to `recv_window` (uint32) and zero `recv_consumed`. -/
def OnData (ch : Channel) (payload : List Nat) : Channel × List ChanEff :=
  if ch.state ≠ .Relaying then (ch, [])
  else
    let c1 := (ch.recvConsumed + payload.length % U32) % U32
    let fwd : List ChanEff := if ch.target.isSome then [.tcpSend payload] else []
    if c1 ≥ ch.recvWindowInitial / 2 then
      ({ ch with recvConsumed := 0, recvWindow := (ch.recvWindow + c1) % U32 },
        fwd ++ [.sendWindowUpdate ch.id c1])
    else
      ({ ch with recvConsumed := c1 }, fwd)

/-- `Channel::OnClose`: send `CHANNEL_CLOSE_ACK`, close and release the
target if present, state `Closed`. -/
def OnClose (ch : Channel) (_flags : Nat) : Channel × List ChanEff :=
  ({ ch with target := none, state := .Closed },
    .sendCloseAck ch.id :: (if ch.target.isSome then [.tcpClose] else []))

/-- `Channel::ForceClose`: no-op when already `Closed`; otherwise close and
release the target if present and set state `Closed`. Also the body of the
destructor `Channel::~Channel`. -/
def ForceClose (ch : Channel) : Channel × List ChanEff :=
  if ch.state = .Closed then (ch, [])
  else
    ({ ch with target := none, state := .Closed },
      if ch.target.isSome then [.tcpClose] else [])

/-- The chunking loop of `Channel::SendToMux`: take `min(remaining, 65536)`,
clamp to the send window and decrement it only when the window is positive,
emit the chunk, repeat. Fuelled (one unit per chunk; every chunk is nonempty,
so `data.length` fuel suffices). Returns the final window and the chunks. -/
def sendLoopF : Nat → Nat → List Nat → Nat × List (List Nat)
  | 0, w, _ => (w, [])
  | fuel + 1, w, data =>
    if data.isEmpty then (w, [])
    else
      let chunk0 := min data.length FRAME_MAX_PAYLOAD
      let chunk := if w > 0 then min chunk0 w else chunk0
      let w1 := if w > 0 then w - chunk else w
      let r := sendLoopF fuel w1 (data.drop chunk)
      (r.1, data.take chunk :: r.2)

/-- `Channel::SendToMux`: chunk the bytes as `sendLoopF` does and send each
chunk as a `DATA` frame through the session. -/
def SendToMux (ch : Channel) (data : List Nat) : Channel × List ChanEff :=
  let r := sendLoopF data.length ch.sendWindow data
  ({ ch with sendWindow := r.1 }, r.2.map fun c => .sendData ch.id c)

/-- `Channel::OnTargetData`: ignore unless `Relaying`, else `SendToMux`. -/
def OnTargetData (ch : Channel) (data : List Nat) : Channel × List ChanEff :=
  if ch.state ≠ .Relaying then (ch, []) else SendToMux ch data

/-- `Channel::OnTargetDisconnected`: in `Relaying` or `Connecting` send
`CHANNEL_CLOSE(FIN)` and move to `Closing`; then close (without releasing)
the target if present. -/
def OnTargetDisconnected (ch : Channel) (_ec : ErrorCode) : Channel × List ChanEff :=
  let s1 :=
    if ch.state = .Relaying ∨ ch.state = .Connecting then
      ({ ch with state := .Closing }, [ChanEff.sendClose ch.id FRAME_FLAG_FIN])
    else (ch, [])
  (s1.1, s1.2 ++ (if ch.target.isSome then [.tcpClose] else []))

/-- `Channel::OnTargetConnected`: no-op unless `Connecting`. On failure send
the mapped SOCKS5 reply as `CHANNEL_REQUEST_ACK`, then `CHANNEL_CLOSE(RST)`,
state `Closed`, release the target. On success send the success reply, state
`Relaying`, start reading from the target. -/
def OnTargetConnected (ch : Channel) (ec : ErrorCode) : Channel × List ChanEff :=
  if ch.state ≠ .Connecting then (ch, [])
  else if ec ≠ .Success then
    ({ ch with state := .Closed, target := none },
      [.sendRequestAck ch.id (Socks5.BuildConnectReply (Socks5.ErrorCodeToSocks5Reply ec)),
       .sendClose ch.id FRAME_FLAG_RST])
  else
    ({ ch with state := .Relaying },
      [.sendRequestAck ch.id (Socks5.BuildConnectReply 0), .tcpStartReading])

/-- `Channel::ProcessSocks5`. `oracle host port` supplies the synchronous
return value of `TcpConnection::ConnectAsync` (DNS or socket-creation failures
return an error immediately, in which case `OnTargetConnected` is invoked
inline; `Success` means the connect completion will arrive later). -/
def ProcessSocks5 (oracle : String → Nat → ErrorCode) (ch : Channel) :
    Channel × List ChanEff :=
  let step1 : Channel × List ChanEff × Bool :=
    if ch.methodDone then (ch, [], true)
    else
      let mr := Socks5.ParseMethodRequest ch.socks5Buf
      if mr.1 = 0 then (ch, [], false)
      else if mr.1 < 0 ∨ mr.2 = false then
        ({ ch with state := .Closed },
          [.sendRequestAck ch.id (Socks5.BuildMethodResponse 255),
           .sendClose ch.id FRAME_FLAG_RST], false)
      else
        ({ ch with
            socks5Buf := ch.socks5Buf.drop mr.1.toNat
            methodDone := true },
          [.sendRequestAck ch.id (Socks5.BuildMethodResponse 0)], true)
  match step1 with
  | (ch1, effs, cont) =>
    if cont = false then (ch1, effs)
    else if ch1.socks5Buf.isEmpty then (ch1, effs)
    else
      let cr := Socks5.ParseConnectRequest ch1.socks5Buf ch1.connectReq
      let ch2 := { ch1 with connectReq := cr.2 }
      if cr.1 = 0 then (ch2, effs)
      else if cr.1 < 0 then
        ({ ch2 with state := .Closed },
          effs ++ [.sendRequestAck ch2.id (Socks5.BuildConnectReply 1),
            .sendClose ch2.id FRAME_FLAG_RST])
      else
        let ch3 := { ch2 with
          socks5Buf := ch2.socks5Buf.drop cr.1.toNat
          state := .Connecting
          target := some () }
        let effs1 := effs ++ [.tcpConnect cr.2.host cr.2.port]
        let ec := oracle cr.2.host cr.2.port
        if ec ≠ .Success then
          let r := OnTargetConnected ch3 ec
          (r.1, effs1 ++ r.2)
        else (ch3, effs1)

/-- `Channel::OnRequest`: ignore outside `Requesting`; otherwise append the
payload to the SOCKS5 buffer and run `ProcessSocks5`. -/
def OnRequest (oracle : String → Nat → ErrorCode) (ch : Channel) (data : List Nat) :
    Channel × List ChanEff :=
  if ch.state ≠ .Requesting then (ch, [])
  else ProcessSocks5 oracle { ch with socks5Buf := ch.socks5Buf ++ data }

end Channel

/-- Observable outputs of the session: encoded frames handed to the
transport's `Send`, and the channels' TCP-side effects (tagged with the
channel id they came from). -/
inductive SessOut where
  | transportSend (bytes : List Nat)
  | chanEffOut (channel_id : Nat) (e : ChanEff)
deriving DecidableEq, Repr

/-- The session state from `mux_session.h`: the running flag, the channel
registry (`std::map<uint16_t, std::unique_ptr<Channel>>`, modelled as an
association list with unique keys), the codec accumulation buffer and the
configured per-channel window size. -/
structure MuxSession where
  running : Bool
  channels : List (Nat × Channel)
  codecBuf : List Nat
  windowSize : Nat
deriving DecidableEq, Repr

/-- Registry lookup (`MuxSession::FindChannel`). -/
def regFind (reg : List (Nat × Channel)) (id : Nat) : Option Channel :=
  (reg.find? fun p => p.1 = id).map Prod.snd

/-- `m_channels[id] = std::move(ch)`: replace the mapped value if the key is
present (the old channel is destroyed by the assignment), else insert. -/
def regInsert (reg : List (Nat × Channel)) (id : Nat) (ch : Channel) :
    List (Nat × Channel) :=
  if (reg.find? fun p => p.1 = id).isSome then
    reg.map fun p => if p.1 = id then (id, ch) else p
  else reg ++ [(id, ch)]

/-- `MuxSession::RemoveChannel`: erase the entry for `id` if present. -/
def regRemove (reg : List (Nat × Channel)) (id : Nat) : List (Nat × Channel) :=
  reg.filter fun p => ¬(p.1 = id)

namespace MuxSession

/-- `MuxSession::SendFrame`: hand the bytes to the transport only while
`m_running` (and the transport pointer, always non-null here, is set). -/
def SendFrame (s : MuxSession) (bytes : List Nat) : List SessOut :=
  if s.running then [.transportSend bytes] else []

/-- Execute one channel effect at the session boundary: the `m_session->Send*`
helpers build the corresponding frame and pass it to `SendFrame`; TCP-side
effects are surfaced as session outputs. -/
def runEff (s : MuxSession) (cid : Nat) (e : ChanEff) : List SessOut :=
  match e with
  | .sendOpenAck id => s.SendFrame (FrameCodec.BuildChannelOpenAck id)
  | .sendRequestAck id p => s.SendFrame (FrameCodec.BuildChannelRequestAck id p)
  | .sendData id p => s.SendFrame (FrameCodec.BuildData id p)
  | .sendClose id f => s.SendFrame (FrameCodec.BuildChannelClose id f)
  | .sendCloseAck id => s.SendFrame (FrameCodec.BuildChannelCloseAck id)
  | .sendWindowUpdate id inc => s.SendFrame (FrameCodec.BuildWindowUpdate id inc)
  | e => [.chanEffOut cid e]

/-- Execute a list of channel effects in order. -/
def runEffs (s : MuxSession) (cid : Nat) (effs : List ChanEff) : List SessOut :=
  effs.foldr (fun e acc => runEff s cid e ++ acc) []

/-- `MuxSession::HandleChannelOpen`: build a fresh channel for the frame's id
with the configured window size; the registry assignment destroys any channel
already mapped to that id (its destructor force-closes its target); then
`OnOpen` runs on the inserted channel. -/
def HandleChannelOpen (s : MuxSession) (fr : Frame) : MuxSession × List SessOut :=
  let id := fr.header.channel_id
  let destructed : List SessOut :=
    match regFind s.channels id with
    | some old => runEffs s id (Channel.ForceClose old).2
    | none => []
  let fresh := Channel.mk0 id s.windowSize
  let r := fresh.OnOpen
  let s1 := { s with channels := regInsert s.channels id r.1 }
  (s1, destructed ++ runEffs s id r.2)

/-- `MuxSession::HandleChannelRequest`: unknown channel → drop; otherwise
forward the payload to `Channel::OnRequest` (the channel mutates in place). -/
def HandleChannelRequest (oracle : String → Nat → ErrorCode) (s : MuxSession)
    (fr : Frame) : MuxSession × List SessOut :=
  let id := fr.header.channel_id
  match regFind s.channels id with
  | none => (s, [])
  | some ch =>
    let r := Channel.OnRequest oracle ch fr.payload
    ({ s with channels := regInsert s.channels id r.1 }, runEffs s id r.2)

/-- `MuxSession::HandleData`: unknown channel → drop; otherwise
`Channel::OnData`. -/
def HandleData (s : MuxSession) (fr : Frame) : MuxSession × List SessOut :=
  let id := fr.header.channel_id
  match regFind s.channels id with
  | none => (s, [])
  | some ch =>
    let r := ch.OnData fr.payload
    ({ s with channels := regInsert s.channels id r.1 }, runEffs s id r.2)

/-- `MuxSession::HandleChannelClose`: unknown channel → still send
`CHANNEL_CLOSE_ACK`; otherwise `Channel::OnClose`, then remove the channel
from the registry if it is now `Closed`. -/
def HandleChannelClose (s : MuxSession) (fr : Frame) : MuxSession × List SessOut :=
  let id := fr.header.channel_id
  match regFind s.channels id with
  | none => (s, s.SendFrame (FrameCodec.BuildChannelCloseAck id))
  | some ch =>
    let r := ch.OnClose fr.header.flags
    let s1 := { s with channels := regInsert s.channels id r.1 }
    let s2 :=
      if r.1.state = .Closed then { s1 with channels := regRemove s1.channels id }
      else s1
    (s2, runEffs s id r.2)

/-- `MuxSession::HandleChannelCloseAck`: unknown channel → silently ignore;
otherwise `Channel::ForceClose` and remove from the registry. -/
def HandleChannelCloseAck (s : MuxSession) (fr : Frame) : MuxSession × List SessOut :=
  let id := fr.header.channel_id
  match regFind s.channels id with
  | none => (s, [])
  | some ch =>
    let r := ch.ForceClose
    ({ s with channels := regRemove s.channels id }, runEffs s id r.2)

/-- `MuxSession::HandlePing`: reply with `PONG`. -/
def HandlePing (s : MuxSession) (_fr : Frame) : MuxSession × List SessOut :=
  (s, s.SendFrame FrameCodec.BuildPong)

/-- `MuxSession::HandleWindowUpdate`: require a 4-byte payload, decode the
little-endian increment, forward to the channel if known. -/
def HandleWindowUpdate (s : MuxSession) (fr : Frame) : MuxSession × List SessOut :=
  if fr.payload.length < 4 then (s, [])
  else
    let inc := rd32 (fr.payload.getD 0 0) (fr.payload.getD 1 0)
      (fr.payload.getD 2 0) (fr.payload.getD 3 0)
    let id := fr.header.channel_id
    match regFind s.channels id with
    | none => (s, [])
    | some ch =>
      ({ s with channels := regInsert s.channels id (ch.OnWindowUpdate inc) }, [])

/-- `MuxSession::DispatchFrame`: route by frame type; unknown types (including
the never-received `CHANNEL_OPEN_ACK`, `CHANNEL_REQUEST_ACK`, `PONG`) are
logged and ignored. -/
def DispatchFrame (oracle : String → Nat → ErrorCode) (s : MuxSession) (fr : Frame) :
    MuxSession × List SessOut :=
  if fr.header.type = 1 then HandleChannelOpen s fr
  else if fr.header.type = 3 then HandleChannelRequest oracle s fr
  else if fr.header.type = 5 then HandleData s fr
  else if fr.header.type = 6 then HandleChannelClose s fr
  else if fr.header.type = 7 then HandleChannelCloseAck s fr
  else if fr.header.type = 8 then HandlePing s fr
  else if fr.header.type = 10 then HandleWindowUpdate s fr
  else (s, [])

/-- Dispatch a list of frames in receipt order, accumulating outputs. -/
def DispatchFrames (oracle : String → Nat → ErrorCode) (s : MuxSession) :
    List Frame → MuxSession × List SessOut
  | [] => (s, [])
  | fr :: rest =>
    let r := DispatchFrame oracle s fr
    let r2 := DispatchFrames oracle r.1 rest
    (r2.1, r.2 ++ r2.2)

/-- `MuxSession::OnDataReceived`: feed the transport bytes to the codec, then
dispatch each emitted frame in order. -/
def OnDataReceived (oracle : String → Nat → ErrorCode) (s : MuxSession)
    (bytes : List Nat) : MuxSession × List SessOut :=
  let fed := FrameCodec.Feed s.codecBuf bytes
  DispatchFrames oracle { s with codecBuf := fed.1 } fed.2

/-- `MuxSession::CloseAllChannels`: force-close every channel, then clear the
registry. -/
def CloseAllChannels (s : MuxSession) : MuxSession × List SessOut :=
  ({ s with channels := [] },
    s.channels.foldr (fun p acc => runEffs s p.1 (Channel.ForceClose p.2).2 ++ acc) [])

/-- `MuxSession::Shutdown`: no-op when not running; otherwise clear the
running flag, stop the keepalive timer and close all channels. -/
def Shutdown (s : MuxSession) : MuxSession × List SessOut :=
  if s.running = false then (s, [])
  else CloseAllChannels { s with running := false }

end MuxSession

/-! ### Codec lemmas -/

/-- A list of length at least 8 starts with eight explicit elements. -/
lemma exists_cons8 (x : List Nat) (h : 8 ≤ x.length) :
    ∃ b0 b1 b2 b3 b4 b5 b6 b7 t,
      x = b0 :: b1 :: b2 :: b3 :: b4 :: b5 :: b6 :: b7 :: t := by
  match x, h with
  | b0 :: b1 :: b2 :: b3 :: b4 :: b5 :: b6 :: b7 :: t, _ =>
    exact ⟨b0, b1, b2, b3, b4, b5, b6, b7, t, rfl⟩
  | [], h | [_], h | [_, _], h | [_, _, _], h | [_, _, _, _], h
  | [_, _, _, _, _], h | [_, _, _, _, _, _], h | [_, _, _, _, _, _, _], h =>
    simp at h

/-- The parsed header only depends on the first eight bytes. -/
lemma parseHeader_append {x : List Nat} (y : List Nat) (h : 8 ≤ x.length) :
    parseHeader (x ++ y) = parseHeader x := by
  obtain ⟨b0, b1, b2, b3, b4, b5, b6, b7, t, rfl⟩ := exists_cons8 x h
  rfl

/-- `parseLoopF` is fuel-insensitive once the fuel covers the buffer length. -/
lemma parseLoopF_congr : ∀ (f1 f2 : Nat) (buf : List Nat),
    buf.length ≤ f1 → buf.length ≤ f2 → parseLoopF f1 buf = parseLoopF f2 buf := by
  intro f1
  induction f1 with
  | zero =>
    intro f2 buf h1 _
    have hb : buf = [] := List.length_eq_zero.mp (Nat.le_zero.mp h1)
    subst hb
    cases f2 with
    | zero => rfl
    | succ f2 => simp [parseLoopF]
  | succ f1 ih =>
    intro f2 buf h1 h2
    cases f2 with
    | zero =>
      have hb : buf = [] := List.length_eq_zero.mp (Nat.le_zero.mp h2)
      subst hb
      simp [parseLoopF]
    | succ f2 =>
      simp only [parseLoopF]
      by_cases hlen : buf.length < 8
      · simp [hlen]
      · simp only [hlen, if_false]
        by_cases hover : (parseHeader buf).payload_length > FRAME_MAX_PAYLOAD
        · simp [hover]
        · simp only [hover, if_false]
          by_cases hshort : buf.length < 8 + (parseHeader buf).payload_length
          · simp [hshort]
          · simp only [hshort, if_false]
            have hrec : parseLoopF f1 (buf.drop (8 + (parseHeader buf).payload_length))
                = parseLoopF f2 (buf.drop (8 + (parseHeader buf).payload_length)) := by
              apply ih
              · simp only [List.length_drop]; omega
              · simp only [List.length_drop]; omega
            rw [hrec]

/-- One-step unfolding of `parseLoop`. -/
lemma parseLoop_eq (buf : List Nat) : parseLoop buf =
    (if buf.length < 8 then .ok [] buf
    else
      let hdr := parseHeader buf
      if hdr.payload_length > FRAME_MAX_PAYLOAD then .err []
      else if buf.length < 8 + hdr.payload_length then .ok [] buf
      else
        let fr : Frame := ⟨hdr, (buf.drop 8).take hdr.payload_length⟩
        match parseLoop (buf.drop (8 + hdr.payload_length)) with
        | .ok fs rest => .ok (fr :: fs) rest
        | .err fs => .err (fr :: fs)) := by
  have hfuel : parseLoop buf = parseLoopF (buf.length + 1) buf := by
    unfold parseLoop
    exact parseLoopF_congr _ _ _ (Nat.le_refl _) (Nat.le_succ _)
  rw [hfuel]
  simp only [parseLoopF]
  by_cases hlen : buf.length < 8
  · simp [hlen]
  · simp only [hlen, if_false]
    by_cases hover : (parseHeader buf).payload_length > FRAME_MAX_PAYLOAD
    · simp [hover]
    · simp only [hover, if_false]
      by_cases hshort : buf.length < 8 + (parseHeader buf).payload_length
      · simp [hshort]
      · simp only [hshort, if_false]
        have hrec : parseLoopF buf.length (buf.drop (8 + (parseHeader buf).payload_length))
            = parseLoop (buf.drop (8 + (parseHeader buf).payload_length)) := by
          unfold parseLoop
          apply parseLoopF_congr
          · simp only [List.length_drop]; omega
          · exact Nat.le_refl _
        rw [hrec]
/-- Appending more bytes after a successfully parsed buffer parses the old
frames first, then continues from the old remainder: streaming decoding is
insensitive to chunk boundaries. -/
lemma parseLoop_append_ok_aux : ∀ (n : Nat) (x : List Nat), x.length ≤ n →
    ∀ fs r y, parseLoop x = .ok fs r →
    parseLoop (x ++ y) = (match parseLoop (r ++ y) with
      | .ok fs2 r2 => .ok (fs ++ fs2) r2
      | .err fs2 => .err (fs ++ fs2)) := by
  intro n
  induction n with
  | zero =>
    intro x hx fs r y h
    have hx0 : x = [] := List.length_eq_zero.mp (Nat.le_zero.mp hx)
    subst hx0
    rw [parseLoop_eq] at h
    simp only [List.length_nil, Nat.zero_lt_succ, if_true] at h
    injection h with h1 h2
    subst h1; subst h2
    cases parseLoop ([] ++ y) <;> simp
  | succ n ih =>
    intro x hx fs r y h
    rw [parseLoop_eq] at h
    by_cases h8 : x.length < 8
    · simp only [h8, if_true] at h
      injection h with h1 h2
      subst h1; subst h2
      cases parseLoop (x ++ y) <;> simp
    · simp only [h8, if_false] at h
      by_cases hov : (parseHeader x).payload_length > FRAME_MAX_PAYLOAD
      · simp only [hov, if_true] at h
        cases h
      · simp only [hov, if_false] at h
        by_cases hsh : x.length < 8 + (parseHeader x).payload_length
        · simp only [hsh, if_true] at h
          injection h with h1 h2
          subst h1; subst h2
          cases parseLoop (x ++ y) <;> simp
        · simp only [hsh, if_false] at h
          cases hrec : parseLoop (x.drop (8 + (parseHeader x).payload_length)) with
          | err fs' => rw [hrec] at h; cases h
          | ok fs' r' =>
            rw [hrec] at h
            injection h with h1 h2
            subst h1; subst h2
            rw [parseLoop_eq]
            have hlen8 : 8 ≤ x.length := Nat.le_of_not_lt h8
            have hxy8 : ¬ (x ++ y).length < 8 := by
              simp only [List.length_append]; omega
            have hhd : parseHeader (x ++ y) = parseHeader x := parseHeader_append y hlen8
            simp only [hxy8, if_false, hhd, hov, if_false]
            have hsh2 : ¬ (x ++ y).length < 8 + (parseHeader x).payload_length := by
              simp only [List.length_append]; omega
            simp only [hsh2, if_false]
            have hdrop : (x ++ y).drop (8 + (parseHeader x).payload_length)
                = x.drop (8 + (parseHeader x).payload_length) ++ y := by
              rw [List.drop_append_eq_append_drop]
              have h0 : 8 + (parseHeader x).payload_length - x.length = 0 := by omega
              rw [h0, List.drop_zero]
            have hpay : ((x ++ y).drop 8).take (parseHeader x).payload_length
                = (x.drop 8).take (parseHeader x).payload_length := by
              have hd8 : (x ++ y).drop 8 = x.drop 8 ++ y := by
                rw [List.drop_append_eq_append_drop]
                have h0 : 8 - x.length = 0 := by omega
                rw [h0, List.drop_zero]
              rw [hd8, List.take_append_eq_append_take]
              have h0 : (parseHeader x).payload_length - (x.drop 8).length = 0 := by
                simp only [List.length_drop]; omega
              rw [h0, List.take_zero, List.append_nil]
            rw [hdrop, hpay]
            have hlendrop : (x.drop (8 + (parseHeader x).payload_length)).length ≤ n := by
              simp only [List.length_drop]; omega
            rw [ih _ hlendrop fs' r' y hrec]
            cases parseLoop (r' ++ y) <;> simp

/-- `parseLoop_append_ok_aux` without the explicit bound. -/
lemma parseLoop_append_ok {x : List Nat} {fs r} (y : List Nat)
    (h : parseLoop x = .ok fs r) :
    parseLoop (x ++ y) = (match parseLoop (r ++ y) with
      | .ok fs2 r2 => .ok (fs ++ fs2) r2
      | .err fs2 => .err (fs ++ fs2)) :=
  parseLoop_append_ok_aux x.length x (Nat.le_refl _) fs r y h

/-- A buffer that already exhibits the oversize protocol error still does
after any further bytes are appended, with the same frames before the
error. -/
lemma parseLoop_append_err_aux : ∀ (n : Nat) (x : List Nat), x.length ≤ n →
    ∀ fs y, parseLoop x = .err fs → parseLoop (x ++ y) = .err fs := by
  intro n
  induction n with
  | zero =>
    intro x hx fs y h
    have hx0 : x = [] := List.length_eq_zero.mp (Nat.le_zero.mp hx)
    subst hx0
    rw [parseLoop_eq] at h
    simp only [List.length_nil, Nat.zero_lt_succ, if_true] at h
    cases h
  | succ n ih =>
    intro x hx fs y h
    rw [parseLoop_eq] at h
    by_cases h8 : x.length < 8
    · simp only [h8, if_true] at h; cases h
    · simp only [h8, if_false] at h
      by_cases hov : (parseHeader x).payload_length > FRAME_MAX_PAYLOAD
      · simp only [hov, if_true] at h
        injection h with h1
        subst h1
        rw [parseLoop_eq]
        have hxy8 : ¬ (x ++ y).length < 8 := by
          simp only [List.length_append]; omega
        have hhd : parseHeader (x ++ y) = parseHeader x :=
          parseHeader_append y (Nat.le_of_not_lt h8)
        simp only [hxy8, if_false, hhd, hov, if_true]
      · simp only [hov, if_false] at h
        by_cases hsh : x.length < 8 + (parseHeader x).payload_length
        · simp only [hsh, if_true] at h; cases h
        · simp only [hsh, if_false] at h
          cases hrec : parseLoop (x.drop (8 + (parseHeader x).payload_length)) with
          | ok fs' r' => rw [hrec] at h; cases h
          | err fs' =>
            rw [hrec] at h
            injection h with h1
            subst h1
            rw [parseLoop_eq]
            have hlen8 : 8 ≤ x.length := Nat.le_of_not_lt h8
            have hxy8 : ¬ (x ++ y).length < 8 := by
              simp only [List.length_append]; omega
            have hhd : parseHeader (x ++ y) = parseHeader x := parseHeader_append y hlen8
            simp only [hxy8, if_false, hhd, hov, if_false]
            have hsh2 : ¬ (x ++ y).length < 8 + (parseHeader x).payload_length := by
              simp only [List.length_append]; omega
            simp only [hsh2, if_false]
            have hdrop : (x ++ y).drop (8 + (parseHeader x).payload_length)
                = x.drop (8 + (parseHeader x).payload_length) ++ y := by
              rw [List.drop_append_eq_append_drop]
              have h0 : 8 + (parseHeader x).payload_length - x.length = 0 := by omega
              rw [h0, List.drop_zero]
            have hpay : ((x ++ y).drop 8).take (parseHeader x).payload_length
                = (x.drop 8).take (parseHeader x).payload_length := by
              have hd8 : (x ++ y).drop 8 = x.drop 8 ++ y := by
                rw [List.drop_append_eq_append_drop]
                have h0 : 8 - x.length = 0 := by omega
                rw [h0, List.drop_zero]
              rw [hd8, List.take_append_eq_append_take]
              have h0 : (parseHeader x).payload_length - (x.drop 8).length = 0 := by
                simp only [List.length_drop]; omega
              rw [h0, List.take_zero, List.append_nil]
            rw [hdrop, hpay]
            have hlendrop : (x.drop (8 + (parseHeader x).payload_length)).length ≤ n := by
              simp only [List.length_drop]; omega
            rw [ih _ hlendrop fs' y hrec]

/-- `parseLoop_append_err_aux` without the explicit bound. -/
lemma parseLoop_append_err {x : List Nat} {fs} (y : List Nat)
    (h : parseLoop x = .err fs) : parseLoop (x ++ y) = .err fs :=
  parseLoop_append_err_aux x.length x (Nat.le_refl _) fs y h

/-- The remainder left by a successful parse contains no complete frame and
no visible oversize error. -/
lemma parseLoop_rest_aux : ∀ (n : Nat) (x : List Nat), x.length ≤ n →
    ∀ fs r, parseLoop x = .ok fs r → parseLoop r = .ok [] r := by
  intro n
  induction n with
  | zero =>
    intro x hx fs r h
    have hx0 : x = [] := List.length_eq_zero.mp (Nat.le_zero.mp hx)
    subst hx0
    rw [parseLoop_eq] at h
    simp only [List.length_nil, Nat.zero_lt_succ, if_true] at h
    injection h with h1 h2
    subst h2
    rw [parseLoop_eq]; simp
  | succ n ih =>
    intro x hx fs r h
    rw [parseLoop_eq] at h
    by_cases h8 : x.length < 8
    · simp only [h8, if_true] at h
      injection h with h1 h2
      subst h2
      rw [parseLoop_eq]
      simp only [h8, if_true]
    · simp only [h8, if_false] at h
      by_cases hov : (parseHeader x).payload_length > FRAME_MAX_PAYLOAD
      · simp only [hov, if_true] at h; cases h
      · simp only [hov, if_false] at h
        by_cases hsh : x.length < 8 + (parseHeader x).payload_length
        · simp only [hsh, if_true] at h
          injection h with h1 h2
          subst h2
          rw [parseLoop_eq]
          simp only [h8, if_false, hov, if_false, hsh, if_true]
        · simp only [hsh, if_false] at h
          cases hrec : parseLoop (x.drop (8 + (parseHeader x).payload_length)) with
          | err fs' => rw [hrec] at h; cases h
          | ok fs' r' =>
            rw [hrec] at h
            injection h with h1 h2
            subst h2
            exact ih _ (by simp only [List.length_drop]; omega) fs' r' hrec

/-- `parseLoop_rest_aux` without the explicit bound. -/
lemma parseLoop_rest {x : List Nat} {fs r} (h : parseLoop x = .ok fs r) :
    parseLoop r = .ok [] r :=
  parseLoop_rest_aux x.length x (Nat.le_refl _) fs r h

/-- The codec state invariant: the accumulation buffer holds no complete
frame and shows no oversize error (this is exactly what `Feed` leaves in
`m_buffer` between calls). -/
def ParsedState (buf : List Nat) : Prop := parseLoop buf = .ok [] buf

/-- A parsed buffer is strictly shorter than the accumulation capacity. -/
lemma ParsedState.length_le {buf : List Nat} (h : ParsedState buf) :
    buf.length ≤ 65543 := by
  unfold ParsedState at h
  rw [parseLoop_eq] at h
  by_cases h8 : buf.length < 8
  · omega
  · simp only [h8, if_false] at h
    by_cases hov : (parseHeader buf).payload_length > FRAME_MAX_PAYLOAD
    · simp only [hov, if_true] at h; cases h
    · simp only [hov, if_false] at h
      by_cases hsh : buf.length < 8 + (parseHeader buf).payload_length
      · simp only [FRAME_MAX_PAYLOAD] at hov; omega
      · simp only [hsh, if_false] at h
        cases hrec : parseLoop (buf.drop (8 + (parseHeader buf).payload_length)) with
        | err fs' => rw [hrec] at h; cases h
        | ok fs' r' => rw [hrec] at h; cases h

/-- With enough fuel, the outer feed loop of a parsed codec state behaves as
one pass of the pure stream parser over `buf ++ input`: it emits exactly the
frames that complete and leaves the incomplete remainder buffered. -/
lemma feedOuter_ok : ∀ (fuel : Nat) (input buf : List Nat) (acc : List Frame) fs r,
    input.length < fuel → ParsedState buf → parseLoop (buf ++ input) = .ok fs r →
    feedOuter fuel buf input acc = (r, acc ++ fs) := by
  intro fuel
  induction fuel with
  | zero => intro input buf acc fs r hf _ _; omega
  | succ fuel ih =>
    intro input buf acc fs r hf hp h
    by_cases hin : input.isEmpty
    · have hin0 : input = [] := List.isEmpty_iff.mp hin
      subst hin0
      rw [List.append_nil] at h
      rw [hp] at h
      injection h with h1 h2
      subst h1; subst h2
      simp [feedOuter]
    · have hin' : input.isEmpty = false := by simpa using hin
      have hlen1 : 1 ≤ input.length := by
        cases input with
        | nil => simp at hin
        | cons a t => simp
      have hcap : buf.length ≤ 65543 := hp.length_le
      simp only [feedOuter, hin', Bool.false_eq_true, if_false]
      have hsplit : buf ++ input
          = (buf ++ input.take (min input.length (FRAME_BUFFER_CAPACITY - buf.length)))
            ++ input.drop (min input.length (FRAME_BUFFER_CAPACITY - buf.length)) := by
        rw [List.append_assoc, List.take_append_drop]
      rw [hsplit] at h
      cases hb1 : parseLoop (buf ++ input.take (min input.length (FRAME_BUFFER_CAPACITY - buf.length))) with
      | err fs' =>
        rw [parseLoop_append_err _ hb1] at h
        cases h
      | ok fs1 r1 =>
        rw [parseLoop_append_ok _ hb1] at h
        cases hb2 : parseLoop (r1 ++ input.drop (min input.length (FRAME_BUFFER_CAPACITY - buf.length))) with
        | err fs2 => rw [hb2] at h; cases h
        | ok fs2 r2 =>
          rw [hb2] at h
          injection h with h1 h2
          subst h1; subst h2
          have hp1 : ParsedState r1 := parseLoop_rest hb1
          have hfl : (input.drop (min input.length (FRAME_BUFFER_CAPACITY - buf.length))).length < fuel := by
            simp only [List.length_drop, FRAME_BUFFER_CAPACITY]
            omega
          dsimp only
          rw [ih _ _ (acc ++ fs1) fs2 r2 hfl hp1 hb2]
          rw [List.append_assoc]

/-- With enough fuel, when the stream `buf ++ input` exhibits the oversize
error, the outer feed loop ends with the accumulation buffer discarded. -/
lemma feedOuter_err : ∀ (fuel : Nat) (input buf : List Nat) (acc : List Frame) fs,
    input.length < fuel → ParsedState buf → parseLoop (buf ++ input) = .err fs →
    (feedOuter fuel buf input acc).1 = [] := by
  intro fuel
  induction fuel with
  | zero => intro input buf acc fs hf _ _; omega
  | succ fuel ih =>
    intro input buf acc fs hf hp h
    by_cases hin : input.isEmpty
    · have hin0 : input = [] := List.isEmpty_iff.mp hin
      subst hin0
      rw [List.append_nil] at h
      rw [hp] at h
      cases h
    · have hin' : input.isEmpty = false := by simpa using hin
      have hlen1 : 1 ≤ input.length := by
        cases input with
        | nil => simp at hin
        | cons a t => simp
      have hcap : buf.length ≤ 65543 := hp.length_le
      simp only [feedOuter, hin', Bool.false_eq_true, if_false]
      have hsplit : buf ++ input
          = (buf ++ input.take (min input.length (FRAME_BUFFER_CAPACITY - buf.length)))
            ++ input.drop (min input.length (FRAME_BUFFER_CAPACITY - buf.length)) := by
        rw [List.append_assoc, List.take_append_drop]
      rw [hsplit] at h
      cases hb1 : parseLoop (buf ++ input.take (min input.length (FRAME_BUFFER_CAPACITY - buf.length))) with
      | err fs' => dsimp only
      | ok fs1 r1 =>
        rw [parseLoop_append_ok _ hb1] at h
        cases hb2 : parseLoop (r1 ++ input.drop (min input.length (FRAME_BUFFER_CAPACITY - buf.length))) with
        | ok fs2 r2 => rw [hb2] at h; cases h
        | err fs2 =>
          have hp1 : ParsedState r1 := parseLoop_rest hb1
          have hfl : (input.drop (min input.length (FRAME_BUFFER_CAPACITY - buf.length))).length < fuel := by
            simp only [List.length_drop, FRAME_BUFFER_CAPACITY]
            omega
          dsimp only
          exact ih _ _ (acc ++ fs1) fs2 hfl hp1 hb2

/-- `Feed` on a parsed codec state implements the pure stream parser: the
frames that complete are emitted and the remainder is buffered. -/
lemma Feed_ok {buf input : List Nat} {fs r} (hp : ParsedState buf)
    (h : parseLoop (buf ++ input) = .ok fs r) :
    FrameCodec.Feed buf input = (r, fs) := by
  unfold FrameCodec.Feed
  rw [feedOuter_ok (2 * input.length + 2) input buf [] fs r (by omega) hp h]
  rw [List.nil_append]

/-- `Feed` on a parsed codec state whose stream shows the oversize error
discards the accumulation buffer. -/
lemma Feed_err {buf input : List Nat} {fs} (hp : ParsedState buf)
    (h : parseLoop (buf ++ input) = .err fs) :
    (FrameCodec.Feed buf input).1 = [] :=
  feedOuter_err (2 * input.length + 2) input buf [] fs (by omega) hp h

/-- The empty buffer is a parsed state (fresh codec). -/
lemma parsedState_nil : ParsedState [] := by
  unfold ParsedState
  rw [parseLoop_eq]
  simp

/-- Reading back the four little-endian bytes of a 32-bit value. -/
lemma rd32_le32 {n : Nat} (h : n < U32) :
    rd32 (n % 256) (n / 256 % 256) (n / 65536 % 256) (n / 16777216 % 256) = n := by
  unfold rd32
  unfold U32 at h
  omega

/-- A buffer that is exactly one frame (8-byte header whose length field
matches the payload) parses to that one frame with nothing left over. -/
lemma parseLoop_cons8 (b0 b1 b2 b3 b4 b5 b6 b7 : Nat) (p : List Nat)
    (hpl : rd32 b4 b5 b6 b7 = p.length) (hle : p.length ≤ 65536) :
    parseLoop (b0 :: b1 :: b2 :: b3 :: b4 :: b5 :: b6 :: b7 :: p)
      = .ok [⟨⟨b0, b1, b2 + 256 * b3, p.length⟩, p⟩] [] := by
  rw [parseLoop_eq]
  have hhd : parseHeader (b0 :: b1 :: b2 :: b3 :: b4 :: b5 :: b6 :: b7 :: p)
      = ⟨b0, b1, b2 + 256 * b3, rd32 b4 b5 b6 b7⟩ := rfl
  have hlen : (b0 :: b1 :: b2 :: b3 :: b4 :: b5 :: b6 :: b7 :: p).length = 8 + p.length := by
    simp only [List.length_cons]
    omega
  rw [hhd, hpl, hlen]
  have h8 : ¬ (8 + p.length < 8) := by omega
  have hov : ¬ (p.length > FRAME_MAX_PAYLOAD) := by
    simp only [FRAME_MAX_PAYLOAD]; omega
  have hsh : ¬ (8 + p.length < 8 + p.length) := by omega
  simp only [h8, if_false, hov, if_false, hsh, if_false]
  have hdrop8 : (b0 :: b1 :: b2 :: b3 :: b4 :: b5 :: b6 :: b7 :: p).drop 8 = p := rfl
  have hdropAll : (b0 :: b1 :: b2 :: b3 :: b4 :: b5 :: b6 :: b7 :: p).drop (8 + p.length)
      = [] := by
    have hsplit : b0 :: b1 :: b2 :: b3 :: b4 :: b5 :: b6 :: b7 :: p
        = [b0, b1, b2, b3, b4, b5, b6, b7] ++ p := rfl
    rw [hsplit, List.drop_append_eq_append_drop]
    simp
  rw [hdrop8, hdropAll, List.take_length]
  have hempty : parseLoop [] = .ok [] [] := parsedState_nil
  rw [hempty]

/-- A frame description as fed to `encode`: type, flags, channel id and
payload. -/
def encodeTuple (q : Nat × Nat × Nat × List Nat) : List Nat :=
  FrameCodec.Encode q.1 q.2.1 q.2.2.1 q.2.2.2

/-- The decoded `Frame` a valid tuple should produce. -/
def tupleFrame (q : Nat × Nat × Nat × List Nat) : Frame :=
  ⟨⟨q.1, q.2.1, q.2.2.1, q.2.2.2.length⟩, q.2.2.2⟩

/-- A tuple is valid when its fields fit the wire format: one-byte type and
flags, two-byte channel id, payload of at most `FRAME_MAX_PAYLOAD` bytes. -/
def ValidTuple (q : Nat × Nat × Nat × List Nat) : Prop :=
  q.1 < 256 ∧ q.2.1 < 256 ∧ q.2.2.1 < 65536 ∧ q.2.2.2.length ≤ 65536 ∧
    ∀ b ∈ q.2.2.2, b < 256

instance (q : Nat × Nat × Nat × List Nat) : Decidable (ValidTuple q) := by
  unfold ValidTuple
  infer_instance

/-- Decoding a single encoded valid frame yields exactly that frame. -/
lemma parseLoop_encode {t f cid : Nat} {p : List Nat} (hT : t < 256) (hF : f < 256)
    (hC : cid < 65536) (hP : p.length ≤ 65536) :
    parseLoop (FrameCodec.Encode t f cid p) = .ok [⟨⟨t, f, cid, p.length⟩, p⟩] [] := by
  have hform : FrameCodec.Encode t f cid p
      = t % 256 :: f % 256 :: cid % 256 :: cid / 256 % 256 :: p.length % 256
        :: p.length / 256 % 256 :: p.length / 65536 % 256 :: p.length / 16777216 % 256 :: p := by
    simp [FrameCodec.Encode, le32]
  rw [hform]
  rw [parseLoop_cons8 _ _ _ _ _ _ _ _ p (rd32_le32 (by unfold U32; omega)) hP]
  have ht : t % 256 = t := Nat.mod_eq_of_lt hT
  have hf : f % 256 = f := Nat.mod_eq_of_lt hF
  have hc : cid % 256 + 256 * (cid / 256 % 256) = cid := by omega
  rw [ht, hf, hc]

/-- Decoding the concatenation of any number of encoded valid frames yields
exactly those frames in order, with nothing buffered. -/
lemma parseLoop_encodeList : ∀ qs : List (Nat × Nat × Nat × List Nat),
    (∀ q ∈ qs, ValidTuple q) →
    parseLoop ((qs.map encodeTuple).flatten) = .ok (qs.map tupleFrame) [] := by
  intro qs
  induction qs with
  | nil =>
    intro _
    simpa using parsedState_nil
  | cons q qs ih =>
    intro hv
    have hq : ValidTuple q := hv q (by simp)
    obtain ⟨h1, h2, h3, h4, _⟩ := hq
    have hone : parseLoop (encodeTuple q) = .ok [tupleFrame q] [] :=
      parseLoop_encode h1 h2 h3 h4
    have hrest : parseLoop ((qs.map encodeTuple).flatten) = .ok (qs.map tupleFrame) [] :=
      ih (fun q hq => hv q (by simp [hq]))
    have hjoin : ((q :: qs).map encodeTuple).flatten
        = encodeTuple q ++ (qs.map encodeTuple).flatten := by simp
    rw [hjoin, parseLoop_append_ok _ hone, List.nil_append, hrest]
    simp

/-- Unfolding `feedChunks` past an explicit accumulator. -/
lemma feedChunks_go : ∀ (cs : List (List Nat)) (b : List Nat) (a : List Frame),
    cs.foldl (fun st c =>
        let r := FrameCodec.Feed st.1 c
        (r.1, st.2 ++ r.2)) (b, a)
      = ((FrameCodec.feedChunks b cs).1, a ++ (FrameCodec.feedChunks b cs).2) := by
  intro cs
  induction cs with
  | nil => intro b a; simp [FrameCodec.feedChunks]
  | cons c cs ih =>
    intro b a
    have hl : (c :: cs).foldl (fun st c =>
          let r := FrameCodec.Feed st.1 c
          (r.1, st.2 ++ r.2)) (b, a)
        = cs.foldl (fun st c =>
          let r := FrameCodec.Feed st.1 c
          (r.1, st.2 ++ r.2)) ((FrameCodec.Feed b c).1, a ++ (FrameCodec.Feed b c).2) := rfl
    have hr : FrameCodec.feedChunks b (c :: cs)
        = cs.foldl (fun st c =>
          let r := FrameCodec.Feed st.1 c
          (r.1, st.2 ++ r.2)) ((FrameCodec.Feed b c).1, [] ++ (FrameCodec.Feed b c).2) := rfl
    rw [hl, hr, ih _ (a ++ (FrameCodec.Feed b c).2), ih _ ([] ++ (FrameCodec.Feed b c).2)]
    simp

/-- Feeding any chunking of a byte stream to the codec emits exactly the
frames the pure stream parser finds in it, leaving the remainder buffered. -/
lemma feedChunks_parse : ∀ (chunks : List (List Nat)) (buf : List Nat) fs r,
    ParsedState buf → parseLoop (buf ++ chunks.flatten) = .ok fs r →
    FrameCodec.feedChunks buf chunks = (r, fs) := by
  intro chunks
  induction chunks with
  | nil =>
    intro buf fs r hp h
    rw [List.flatten_nil, List.append_nil] at h
    rw [hp] at h
    injection h with h1 h2
    subst h1; subst h2
    rfl
  | cons c cs ih =>
    intro buf fs r hp h
    have hjoin : (c :: cs).flatten = c ++ cs.flatten := by simp
    rw [hjoin, ← List.append_assoc] at h
    cases hb1 : parseLoop (buf ++ c) with
    | err fs' =>
      rw [parseLoop_append_err _ hb1] at h
      cases h
    | ok fs1 r1 =>
      rw [parseLoop_append_ok _ hb1] at h
      cases hb2 : parseLoop (r1 ++ cs.flatten) with
      | err fs2 => rw [hb2] at h; cases h
      | ok fs2 r2 =>
        rw [hb2] at h
        injection h with h1 h2
        subst h1; subst h2
        have hfeed : FrameCodec.Feed buf c = (r1, fs1) := Feed_ok hp hb1
        have hrec : FrameCodec.feedChunks r1 cs = (r2, fs2) :=
          ih r1 fs2 r2 (parseLoop_rest hb1) hb2
        have hcons : FrameCodec.feedChunks buf (c :: cs)
            = ((FrameCodec.feedChunks (FrameCodec.Feed buf c).1 cs).1,
                (FrameCodec.Feed buf c).2
                  ++ (FrameCodec.feedChunks (FrameCodec.Feed buf c).1 cs).2) := by
          have h0 : FrameCodec.feedChunks buf (c :: cs)
              = cs.foldl (fun st c =>
                let r := FrameCodec.Feed st.1 c
                (r.1, st.2 ++ r.2)) ((FrameCodec.Feed buf c).1, [] ++ (FrameCodec.Feed buf c).2) := rfl
          rw [h0, feedChunks_go]
          simp
        rw [hcons, hfeed, hrec]

/-! ### Claim C3 -/

/-- Claim C3: for every valid tuple `(type, flags, channel_id, payload)` with
`|payload| ≤ 65536`, feeding `encode(type, flags, channel_id, payload)` to a
fresh codec yields exactly the one frame with that header and payload; and for
every sequence of valid frames encoded, concatenated, and fed in any partition
into chunks, the successive `feed` calls emit exactly those frames in
order (with nothing left buffered). -/
theorem C3_frame_roundtrip_and_stream :
    (∀ q : Nat × Nat × Nat × List Nat, ValidTuple q →
      FrameCodec.Feed [] (encodeTuple q) = ([], [tupleFrame q])) ∧
    (∀ (qs : List (Nat × Nat × Nat × List Nat)) (chunks : List (List Nat)),
      (∀ q ∈ qs, ValidTuple q) →
      chunks.flatten = (qs.map encodeTuple).flatten →
      FrameCodec.feedChunks [] chunks = ([], qs.map tupleFrame)) := by
  constructor
  · intro q hq
    obtain ⟨h1, h2, h3, h4, _⟩ := hq
    apply Feed_ok parsedState_nil
    rw [List.nil_append]
    exact parseLoop_encode h1 h2 h3 h4
  · intro qs chunks hv hflat
    apply feedChunks_parse chunks [] (qs.map tupleFrame) [] parsedState_nil
    rw [List.nil_append, hflat]
    exact parseLoop_encodeList qs hv

/-- Witness for C3 at concrete inputs: a single DATA frame round-trips, and
two frames (a DATA frame and a PING frame) stream correctly through an
arbitrary 3-chunk partition of their concatenated encodings. -/
theorem C3_frame_roundtrip_and_stream_witness :
    FrameCodec.Feed [] (encodeTuple (5, 0, 7, [97, 98, 99]))
      = ([], [tupleFrame (5, 0, 7, [97, 98, 99])]) ∧
    FrameCodec.feedChunks []
        [[5, 0, 7, 0, 2], [0, 0, 0, 97, 98, 8, 0], [0, 0, 0, 0, 0, 0]]
      = ([], [tupleFrame (5, 0, 7, [97, 98]), tupleFrame (8, 0, 0, [])]) :=
  ⟨C3_frame_roundtrip_and_stream.1 (5, 0, 7, [97, 98, 99]) (by decide),
   C3_frame_roundtrip_and_stream.2 [(5, 0, 7, [97, 98]), (8, 0, 0, [])]
     [[5, 0, 7, 0, 2], [0, 0, 0, 97, 98, 8, 0], [0, 0, 0, 0, 0, 0]]
     (by decide) (by decide)⟩

/-! ### Session dispatch invariants -/

/-- No frame handler touches the running flag. -/
lemma DispatchFrame_running (oracle : String → Nat → ErrorCode) (s : MuxSession)
    (fr : Frame) : (MuxSession.DispatchFrame oracle s fr).1.running = s.running := by
  unfold MuxSession.DispatchFrame MuxSession.HandleChannelOpen
    MuxSession.HandleChannelRequest MuxSession.HandleData MuxSession.HandleChannelClose
    MuxSession.HandleChannelCloseAck MuxSession.HandlePing MuxSession.HandleWindowUpdate
  dsimp only
  repeat' split
  all_goals rfl

/-- No frame handler touches the codec buffer. -/
lemma DispatchFrame_codecBuf (oracle : String → Nat → ErrorCode) (s : MuxSession)
    (fr : Frame) : (MuxSession.DispatchFrame oracle s fr).1.codecBuf = s.codecBuf := by
  unfold MuxSession.DispatchFrame MuxSession.HandleChannelOpen
    MuxSession.HandleChannelRequest MuxSession.HandleData MuxSession.HandleChannelClose
    MuxSession.HandleChannelCloseAck MuxSession.HandlePing MuxSession.HandleWindowUpdate
  dsimp only
  repeat' split
  all_goals rfl

/-- Dispatching any frame list leaves the running flag unchanged. -/
lemma DispatchFrames_running (oracle : String → Nat → ErrorCode) :
    ∀ (frames : List Frame) (s : MuxSession),
      (MuxSession.DispatchFrames oracle s frames).1.running = s.running := by
  intro frames
  induction frames with
  | nil => intro s; rfl
  | cons fr rest ih =>
    intro s
    show (MuxSession.DispatchFrames oracle
      (MuxSession.DispatchFrame oracle s fr).1 rest).1.running = s.running
    rw [ih, DispatchFrame_running]

/-- Dispatching any frame list leaves the codec buffer unchanged. -/
lemma DispatchFrames_codecBuf (oracle : String → Nat → ErrorCode) :
    ∀ (frames : List Frame) (s : MuxSession),
      (MuxSession.DispatchFrames oracle s frames).1.codecBuf = s.codecBuf := by
  intro frames
  induction frames with
  | nil => intro s; rfl
  | cons fr rest ih =>
    intro s
    show (MuxSession.DispatchFrames oracle
      (MuxSession.DispatchFrame oracle s fr).1 rest).1.codecBuf = s.codecBuf
    rw [ih, DispatchFrame_codecBuf]

/-! ### Claim C1 -/

/-- A connect oracle for concrete runs: `ConnectAsync` returns `Success`
synchronously (completion would arrive later). -/
def connectAlwaysSucceeds : String → Nat → ErrorCode := fun _ _ => .Success

/-- A freshly started session with the default 262144-byte channel window. -/
def freshSession : MuxSession :=
  { running := true, channels := [], codecBuf := [], windowSize := 262144 }

/-- An 8-byte frame header declaring `payload_length = 65537 > 65536`
(type 1, flags 0, channel 1, length bytes little-endian `01 00 01 00`). -/
def oversizedHeaderBytes : List Nat := [1, 0, 1, 0, 1, 0, 1, 0]

/-- Claim C1 counterexample: feeding a session a frame header with
`payload_length = 65537 > 65536` does not terminate the session — `Feed` is
`void` and only logs, so after `OnDataReceived` the session is still running
and nothing at all was sent or signalled (the codec merely discarded its
buffer). This refutes the claim that a fatal protocol-error indication is
returned and the session is terminated. -/
theorem C1_counterexample :
    (MuxSession.OnDataReceived connectAlwaysSucceeds freshSession
        oversizedHeaderBytes).1.running = true
    ∧ (MuxSession.OnDataReceived connectAlwaysSucceeds freshSession
        oversizedHeaderBytes).2 = []
    ∧ (MuxSession.OnDataReceived connectAlwaysSucceeds freshSession
        oversizedHeaderBytes).1.codecBuf = [] := by
  decide

/-- Claim C1 (amended): when the byte stream delivered to `feed` reveals a
frame header with `payload_length > 65536`, `feed` discards the codec's
internal accumulation state (and the rest of that call's input) and returns
only the frames completed before the error; no error indication reaches the
caller and the session is not terminated — its running flag is unchanged, so
it keeps processing later input. -/
theorem C1_overflow_discards_state_session_survives
    (oracle : String → Nat → ErrorCode) (s : MuxSession) (input : List Nat)
    (fs : List Frame) (hp : ParsedState s.codecBuf)
    (herr : parseLoop (s.codecBuf ++ input) = .err fs) :
    (MuxSession.OnDataReceived oracle s input).1.codecBuf = []
    ∧ (MuxSession.OnDataReceived oracle s input).1.running = s.running := by
  unfold MuxSession.OnDataReceived
  constructor
  · rw [DispatchFrames_codecBuf]
    exact Feed_err hp herr
  · rw [DispatchFrames_running]

/-- Witness for the amended C1 at the concrete oversized header. -/
theorem C1_overflow_discards_state_session_survives_witness :
    (MuxSession.OnDataReceived connectAlwaysSucceeds freshSession
        oversizedHeaderBytes).1.codecBuf = []
    ∧ (MuxSession.OnDataReceived connectAlwaysSucceeds freshSession
        oversizedHeaderBytes).1.running = freshSession.running :=
  C1_overflow_discards_state_session_survives connectAlwaysSucceeds freshSession
    oversizedHeaderBytes [] parsedState_nil (by decide)

/-! ### Claim C2 -/

/-- A relaying channel (id 9, window size 262144) whose send window has been
fully consumed. -/
def relayingZeroWindow : Channel :=
  { Channel.mk0 9 262144 with state := .Relaying, target := some (), sendWindow := 0 }

/-- Claim C2 counterexample: with `send_window = 0`, outbound-TCP bytes
`[1, 2, 3]` are NOT retained — `SendToMux` emits them immediately as a DATA
frame and the channel keeps no buffered bytes (it is unchanged), refuting the
claim that sends pause at a zero window until a `WINDOW_UPDATE` arrives. -/
theorem C2_counterexample :
    (Channel.OnTargetData relayingZeroWindow [1, 2, 3]).2
      = [ChanEff.sendData 9 [1, 2, 3]]
    ∧ (Channel.OnTargetData relayingZeroWindow [1, 2, 3]).1 = relayingZeroWindow := by
  decide

/-- With a zero window the chunking loop never clamps or decrements: it
emits everything in chunks of at most `FRAME_MAX_PAYLOAD`. -/
lemma sendLoopF_zero : ∀ (fuel : Nat) (data : List Nat), data.length ≤ fuel →
    (Channel.sendLoopF fuel 0 data).1 = 0
    ∧ (Channel.sendLoopF fuel 0 data).2.flatten = data
    ∧ ∀ c ∈ (Channel.sendLoopF fuel 0 data).2, c.length ≤ 65536 := by
  intro fuel
  induction fuel with
  | zero =>
    intro data hf
    have h0 : data = [] := List.length_eq_zero.mp (Nat.le_zero.mp hf)
    subst h0
    simp [Channel.sendLoopF]
  | succ fuel ih =>
    intro data hf
    by_cases hin : data.isEmpty
    · have h0 : data = [] := List.isEmpty_iff.mp hin
      subst h0
      simp [Channel.sendLoopF]
    · have hin' : data.isEmpty = false := by simpa using hin
      have hlen1 : 1 ≤ data.length := by
        cases data with
        | nil => simp at hin
        | cons a t => simp
      have hrec := ih (data.drop (min data.length FRAME_MAX_PAYLOAD))
        (by simp only [List.length_drop, FRAME_MAX_PAYLOAD]; omega)
      simp only [Channel.sendLoopF, hin', Bool.false_eq_true, if_false,
        Nat.lt_irrefl, if_false, FRAME_MAX_PAYLOAD] at hrec ⊢
      refine ⟨hrec.1, ?_, ?_⟩
      · simp only [List.flatten_cons, hrec.2.1, List.take_append_drop]
      · intro c hc
        rcases List.mem_cons.mp hc with h | h
        · subst h
          simp only [List.length_take]
          omega
        · exact hrec.2.2 c h

/-- Claim C2 (amended): a zero `send_window` does not pause sends. The source
clamps the chunk to the window only when the window is positive; at zero it
proceeds, so `SendToMux` emits every outbound-TCP byte immediately as DATA
frames (chunks of at most 65536 bytes), leaves the window at zero and retains
nothing — the channel is unchanged. -/
theorem C2_zero_window_sends_immediately (ch : Channel) (data : List Nat)
    (hw : ch.sendWindow = 0) :
    (Channel.SendToMux ch data).1 = ch
    ∧ ∃ chunks : List (List Nat),
        (Channel.SendToMux ch data).2 = chunks.map (ChanEff.sendData ch.id)
        ∧ chunks.flatten = data
        ∧ ∀ c ∈ chunks, c.length ≤ 65536 := by
  have h := sendLoopF_zero data.length data (Nat.le_refl _)
  unfold Channel.SendToMux
  rw [hw]
  dsimp only
  constructor
  · rw [h.1, ← hw]
  · exact ⟨(Channel.sendLoopF data.length 0 data).2, rfl, h.2.1, h.2.2⟩

/-- Witness for the amended C2 at the concrete zero-window channel. -/
theorem C2_zero_window_sends_immediately_witness :
    (Channel.SendToMux relayingZeroWindow [1, 2, 3]).1 = relayingZeroWindow
    ∧ ∃ chunks : List (List Nat),
        (Channel.SendToMux relayingZeroWindow [1, 2, 3]).2
          = chunks.map (ChanEff.sendData relayingZeroWindow.id)
        ∧ chunks.flatten = [1, 2, 3]
        ∧ ∀ c ∈ chunks, c.length ≤ 65536 :=
  C2_zero_window_sends_immediately relayingZeroWindow [1, 2, 3] rfl

/-! ### Claim C4 -/

/-- Claim C4: a `Relaying` channel receiving a DATA payload of size `n` adds
`n` to `recv_consumed`; when the updated `recv_consumed` reaches
`recv_window_initial / 2` it emits exactly one `WINDOW_UPDATE` whose increment
equals that `recv_consumed`, adds the same amount to `recv_window` and resets
`recv_consumed` to zero; otherwise it emits no `WINDOW_UPDATE` and only
forwards the bytes. The `uint32_t` no-overflow side conditions make the
modular additions exact. -/
theorem C4_recv_window_discipline (ch : Channel) (payload : List Nat)
    (hst : ch.state = .Relaying)
    (hc : ch.recvConsumed + payload.length < U32)
    (hw : ch.recvWindow + ch.recvConsumed + payload.length < U32) :
    (ch.recvConsumed + payload.length ≥ ch.recvWindowInitial / 2 →
      (Channel.OnData ch payload).2
        = (if ch.target.isSome then [ChanEff.tcpSend payload] else [])
          ++ [ChanEff.sendWindowUpdate ch.id (ch.recvConsumed + payload.length)]
      ∧ (Channel.OnData ch payload).1.recvWindow
          = ch.recvWindow + (ch.recvConsumed + payload.length)
      ∧ (Channel.OnData ch payload).1.recvConsumed = 0)
    ∧ (ch.recvConsumed + payload.length < ch.recvWindowInitial / 2 →
      (Channel.OnData ch payload).2
        = (if ch.target.isSome then [ChanEff.tcpSend payload] else [])
      ∧ (Channel.OnData ch payload).1.recvConsumed
          = ch.recvConsumed + payload.length
      ∧ (Channel.OnData ch payload).1.recvWindow = ch.recvWindow) := by
  have hnm : payload.length % U32 = payload.length :=
    Nat.mod_eq_of_lt (by omega)
  have hcm : (ch.recvConsumed + payload.length) % U32
      = ch.recvConsumed + payload.length := Nat.mod_eq_of_lt (by omega)
  have hwm : (ch.recvWindow + (ch.recvConsumed + payload.length)) % U32
      = ch.recvWindow + (ch.recvConsumed + payload.length) :=
    Nat.mod_eq_of_lt (by omega)
  unfold Channel.OnData
  rw [hst]
  simp only [hnm, hcm]
  constructor
  · intro hge
    have hcond : ch.recvConsumed + payload.length ≥ ch.recvWindowInitial / 2 := hge
    simp only [if_pos hcond, hwm]
    exact ⟨rfl, rfl, rfl⟩
  · intro hlt
    have hcond : ¬ (ch.recvConsumed + payload.length ≥ ch.recvWindowInitial / 2) := by
      omega
    simp only [if_neg hcond]
    exact ⟨rfl, rfl, rfl⟩

/-- A relaying channel (id 4) with a 1024-byte window, as in the spec's flow
control scenario. -/
def relayingSmallWindow : Channel :=
  { Channel.mk0 4 1024 with state := .Relaying, target := some () }

set_option maxRecDepth 8192 in
/-- Witness for C4: the scenario-D channel (window 1024, so threshold 512)
receiving a 600-byte DATA payload; the threshold condition holds concretely,
so one `WINDOW_UPDATE` with increment 600 is emitted, the window grows by 600
and the consumed counter resets. -/
theorem C4_recv_window_discipline_witness :
    ((relayingSmallWindow.recvConsumed + (List.replicate 600 7).length
        ≥ relayingSmallWindow.recvWindowInitial / 2 →
      (Channel.OnData relayingSmallWindow (List.replicate 600 7)).2
        = (if relayingSmallWindow.target.isSome
            then [ChanEff.tcpSend (List.replicate 600 7)] else [])
          ++ [ChanEff.sendWindowUpdate relayingSmallWindow.id
              (relayingSmallWindow.recvConsumed + (List.replicate 600 7).length)]
      ∧ (Channel.OnData relayingSmallWindow (List.replicate 600 7)).1.recvWindow
          = relayingSmallWindow.recvWindow
            + (relayingSmallWindow.recvConsumed + (List.replicate 600 7).length)
      ∧ (Channel.OnData relayingSmallWindow (List.replicate 600 7)).1.recvConsumed = 0)
    ∧ (relayingSmallWindow.recvConsumed + (List.replicate 600 7).length
        < relayingSmallWindow.recvWindowInitial / 2 →
      (Channel.OnData relayingSmallWindow (List.replicate 600 7)).2
        = (if relayingSmallWindow.target.isSome
            then [ChanEff.tcpSend (List.replicate 600 7)] else [])
      ∧ (Channel.OnData relayingSmallWindow (List.replicate 600 7)).1.recvConsumed
          = relayingSmallWindow.recvConsumed + (List.replicate 600 7).length
      ∧ (Channel.OnData relayingSmallWindow (List.replicate 600 7)).1.recvWindow
          = relayingSmallWindow.recvWindow))
    ∧ relayingSmallWindow.recvConsumed + (List.replicate 600 7).length
        ≥ relayingSmallWindow.recvWindowInitial / 2 :=
  ⟨C4_recv_window_discipline relayingSmallWindow (List.replicate 600 7) rfl
      (by decide) (by decide),
    by decide⟩

/-! ### SOCKS5 message forms -/

/-- A well-formed method-selection message: version 5, a count byte, and
exactly that many method bytes. -/
def methodMsg (methods : List Nat) : List Nat := 5 :: methods.length :: methods

/-- The destination address of a CONNECT request. -/
inductive Socks5Addr where
  | ipv4 (a b c d : Nat)
  | domain (name : List Nat)
  | ipv6 (bytes : List Nat)
deriving DecidableEq, Repr

/-- The `ATYP` byte of an address. -/
def addrAtyp : Socks5Addr → Nat
  | .ipv4 _ _ _ _ => 1
  | .domain _ => 3
  | .ipv6 _ => 4

/-- The wire bytes of the address section (4 / 1+N / 16 bytes). -/
def addrBytes : Socks5Addr → List Nat
  | .ipv4 a b c d => [a, b, c, d]
  | .domain name => name.length :: name
  | .ipv6 bs => bs

/-- Well-formedness of an address: byte-sized entries, a domain of at most
255 bytes, an IPv6 address of exactly 16 bytes. -/
def ValidAddr : Socks5Addr → Prop
  | .ipv4 a b c d => a < 256 ∧ b < 256 ∧ c < 256 ∧ d < 256
  | .domain name => name.length ≤ 255 ∧ ∀ b ∈ name, b < 256
  | .ipv6 bs => bs.length = 16 ∧ ∀ b ∈ bs, b < 256

/-- A well-formed SOCKS5 request: `VER CMD RSV ATYP addr PORT(BE)`. -/
def connectMsg (cmd : Nat) (addr : Socks5Addr) (port : Nat) : List Nat :=
  [5, cmd, 0, addrAtyp addr] ++ addrBytes addr ++ [port / 256, port % 256]

/-- The `ConnectRequest` that parsing a well-formed request should produce:
only the fields the parser writes for the given address type change; the
others keep the values they had in the threaded `out` record. -/
def expectedConnect (addr : Socks5Addr) (port : Nat)
    (out0 : Socks5.ConnectRequest) : Socks5.ConnectRequest :=
  match addr with
  | .ipv4 a b c d =>
    { out0 with
        atyp := 1
        ipv4 := [a, b, c, d]
        host := Socks5.ipv4String a b c d
        port := port }
  | .domain name =>
    { out0 with
        atyp := 3
        host := Socks5.domainString name
        port := port }
  | .ipv6 bs =>
    { out0 with
        atyp := 4
        ipv6 := bs
        host := Socks5.ipv6String bs
        port := port }

/-- Parsing the complete method-selection message consumes it entirely and
reports whether NO_AUTH (0) was offered. -/
lemma parseMethod_full (methods : List Nat) :
    Socks5.ParseMethodRequest (methodMsg methods)
      = (Int.ofNat (methodMsg methods).length, methods.contains 0) := by
  unfold Socks5.ParseMethodRequest methodMsg
  have hlen : (5 :: methods.length :: methods).length = 2 + methods.length := by
    simp only [List.length_cons]; omega
  rw [hlen]
  have h2 : ¬ (2 + methods.length < 2) := by omega
  have h5 : ((5 : Nat) :: methods.length :: methods).getD 0 0 = 5 := rfl
  have hn : ((5 : Nat) :: methods.length :: methods).getD 1 0 = methods.length := rfl
  have hd : ((5 : Nat) :: methods.length :: methods).drop 2 = methods := rfl
  simp only [h2, if_false, h5, hn, hd, List.take_length]
  have h25 : ¬ ((5 : Nat) ≠ 5) := by omega
  simp only [ne_eq, h25, if_false, not_false_eq_true, if_true]
  have hc : ¬ (2 + methods.length < 2 + methods.length) := by omega
  simp only [hc, if_false]

/-- Parsing any proper front part of a method-selection message consumes
nothing (waits for more bytes). -/
lemma parseMethod_front (methods : List Nat) :
    ∀ k, k < (methodMsg methods).length →
      (Socks5.ParseMethodRequest ((methodMsg methods).take k)).1 = 0 := by
  intro k hk
  have hmlen : (methodMsg methods).length = 2 + methods.length := by
    simp only [methodMsg, List.length_cons]; omega
  match k with
  | 0 => rfl
  | 1 => rfl
  | k + 2 =>
    have htake : (methodMsg methods).take (k + 2)
        = 5 :: methods.length :: methods.take k := rfl
    rw [htake]
    unfold Socks5.ParseMethodRequest
    have hlen : ((5 : Nat) :: methods.length :: methods.take k).length
        = 2 + min k methods.length := by
      simp only [List.length_cons, List.length_take]
      omega
    have hkm : k < methods.length := by omega
    have h2 : ¬ (2 + min k methods.length < 2) := by omega
    have hshort : 2 + min k methods.length < 2 + methods.length := by omega
    simp only [hlen, h2, if_false]
    have h5 : ((5 : Nat) :: methods.length :: methods.take k).getD 0 0 = 5 := rfl
    have hn : ((5 : Nat) :: methods.length :: methods.take k).getD 1 0 = methods.length := rfl
    simp only [h5, hn, ne_eq, not_true_eq_false, if_false, reduceIte]
    rw [if_pos hshort]

/-- A complete IPv4 CONNECT-form request parses by pure computation (the
final command test returns the same pair on both branches, so it reduces by
`ite_self`). -/
lemma parseConnect_ipv4_raw (cmd a b c d hi lo : Nat) (out0 : Socks5.ConnectRequest) :
    Socks5.ParseConnectRequest [5, cmd, 0, 1, a, b, c, d, hi, lo] out0
      = (Int.ofNat 10,
        { out0 with
            atyp := 1
            ipv4 := [a, b, c, d]
            host := Socks5.ipv4String a b c d
            port := (256 * hi + lo) % 65536 }) := by
  exact ite_self _

/-- A complete DOMAIN CONNECT-form request parses to the domain host and
big-endian port, consuming `7 + |name|` bytes. -/
lemma parseConnect_domain_raw (cmd : Nat) (name : List Nat) (hi lo : Nat)
    (out0 : Socks5.ConnectRequest) :
    Socks5.ParseConnectRequest (5 :: cmd :: 0 :: 3 :: name.length :: (name ++ [hi, lo])) out0
      = (Int.ofNat (7 + name.length),
        { out0 with
            atyp := 3
            host := Socks5.domainString name
            port := (256 * hi + lo) % 65536 }) := by
  have hlen : (5 :: cmd :: 0 :: 3 :: name.length :: (name ++ [hi, lo])).length
      = 7 + name.length := by
    simp only [List.length_cons, List.length_append, List.length_cons, List.length_nil]
    omega
  have hsplit : (5 : Nat) :: cmd :: 0 :: 3 :: name.length :: (name ++ [hi, lo])
      = (5 :: cmd :: 0 :: 3 :: name.length :: name) ++ [hi, lo] := by
    simp
  have hlenfront : ((5 : Nat) :: cmd :: 0 :: 3 :: name.length :: name).length
      = 5 + name.length := by
    simp only [List.length_cons]; omega
  have hhi : ((5 : Nat) :: cmd :: 0 :: 3 :: name.length :: (name ++ [hi, lo])).getD
      (4 + (1 + name.length)) 0 = hi := by
    rw [hsplit, List.getD_append_right _ _ _ _ (by rw [hlenfront]; omega)]
    rw [hlenfront]
    have h0 : 4 + (1 + name.length) - (5 + name.length) = 0 := by omega
    rw [h0]
    rfl
  have hlo : ((5 : Nat) :: cmd :: 0 :: 3 :: name.length :: (name ++ [hi, lo])).getD
      (4 + (1 + name.length) + 1) 0 = lo := by
    rw [hsplit, List.getD_append_right _ _ _ _ (by rw [hlenfront]; omega)]
    rw [hlenfront]
    have h1 : 4 + (1 + name.length) + 1 - (5 + name.length) = 1 := by omega
    rw [h1]
    rfl
  have htake : (name ++ [hi, lo]).take name.length = name := by
    rw [List.take_append_eq_append_take]
    simp
  have hdrop5 : ((5 : Nat) :: cmd :: 0 :: 3 :: name.length :: (name ++ [hi, lo])).drop 5
      = name ++ [hi, lo] := rfl
  have hg0 : ((5 : Nat) :: cmd :: 0 :: 3 :: name.length :: (name ++ [hi, lo])).getD 0 0
      = 5 := rfl
  have hg3 : ((5 : Nat) :: cmd :: 0 :: 3 :: name.length :: (name ++ [hi, lo])).getD 3 0
      = 3 := rfl
  have hg4 : ((5 : Nat) :: cmd :: 0 :: 3 :: name.length :: (name ++ [hi, lo])).getD 4 0
      = name.length := rfl
  have h4 : ¬ (7 + name.length < 4) := by omega
  have h5 : ¬ (7 + name.length < 5) := by omega
  have htot : ¬ (7 + name.length < 4 + (1 + name.length) + 2) := by omega
  have e5 : (((5 : Nat) ≠ 5)) = False := by decide
  have e31 : (((3 : Nat) = 1)) = False := by decide
  have e33 : (((3 : Nat) = 3)) = True := by decide
  have harith : 4 + (1 + name.length) + 2 = 7 + name.length := by omega
  unfold Socks5.ParseConnectRequest
  rw [hlen]
  simp only [hg0, hg3, hg4, e5, e31, e33, if_false, if_true, h4, h5, htot,
    hdrop5, htake, hhi, hlo, ite_self, harith, lt_self_iff_false]

/-- A complete IPv6 CONNECT-form request parses to the hex host and
big-endian port, consuming 22 bytes. -/
lemma parseConnect_ipv6_raw (cmd : Nat) (bs : List Nat) (hi lo : Nat)
    (out0 : Socks5.ConnectRequest) (hbs : bs.length = 16) :
    Socks5.ParseConnectRequest (5 :: cmd :: 0 :: 4 :: (bs ++ [hi, lo])) out0
      = (Int.ofNat 22,
        { out0 with
            atyp := 4
            ipv6 := bs
            host := Socks5.ipv6String bs
            port := (256 * hi + lo) % 65536 }) := by
  have hlen : (5 :: cmd :: 0 :: 4 :: (bs ++ [hi, lo])).length = 22 := by
    simp only [List.length_cons, List.length_append, List.length_cons, List.length_nil]
    omega
  have hsplit : (5 : Nat) :: cmd :: 0 :: 4 :: (bs ++ [hi, lo])
      = (5 :: cmd :: 0 :: 4 :: bs) ++ [hi, lo] := by simp
  have hlenfront : ((5 : Nat) :: cmd :: 0 :: 4 :: bs).length = 20 := by
    simp only [List.length_cons]; omega
  have hhi : ((5 : Nat) :: cmd :: 0 :: 4 :: (bs ++ [hi, lo])).getD (4 + 16) 0 = hi := by
    rw [hsplit, List.getD_append_right _ _ _ _ (by rw [hlenfront])]
    rw [hlenfront]
    rfl
  have hlo : ((5 : Nat) :: cmd :: 0 :: 4 :: (bs ++ [hi, lo])).getD (4 + 16 + 1) 0 = lo := by
    rw [hsplit, List.getD_append_right _ _ _ _ (by rw [hlenfront]; omega)]
    rw [hlenfront]
    rfl
  have htake : (bs ++ [hi, lo]).take 16 = bs := by
    rw [← hbs, List.take_append_eq_append_take]
    simp
  have hdrop4 : ((5 : Nat) :: cmd :: 0 :: 4 :: (bs ++ [hi, lo])).drop 4
      = bs ++ [hi, lo] := rfl
  have hg0 : ((5 : Nat) :: cmd :: 0 :: 4 :: (bs ++ [hi, lo])).getD 0 0 = 5 := rfl
  have hg3 : ((5 : Nat) :: cmd :: 0 :: 4 :: (bs ++ [hi, lo])).getD 3 0 = 4 := rfl
  have e5 : (((5 : Nat) ≠ 5)) = False := by decide
  have e41 : (((4 : Nat) = 1)) = False := by decide
  have e43 : (((4 : Nat) = 3)) = False := by decide
  have e44 : (((4 : Nat) = 4)) = True := by decide
  have ea : (((22 : Nat) < 4)) = False := by decide
  have eb : (((22 : Nat) < 4 + 16 + 2)) = False := by decide
  have harith : (4 + 16 + 2 : Nat) = 22 := rfl
  unfold Socks5.ParseConnectRequest
  rw [hlen]
  simp only [hg0, hg3, e5, e41, e43, e44, if_false, if_true, ea, eb,
    hdrop4, htake, hhi, hlo, ite_self, harith]

/-- A list of length 16 is sixteen explicit elements. -/
lemma exists_cons16 (x : List Nat) (h : x.length = 16) :
    ∃ b0 b1 b2 b3 b4 b5 b6 b7 b8 b9 b10 b11 b12 b13 b14 b15,
      x = [b0, b1, b2, b3, b4, b5, b6, b7, b8, b9, b10, b11, b12, b13, b14, b15] := by
  obtain ⟨b0, b1, b2, b3, b4, b5, b6, b7, t, rfl⟩ := exists_cons8 x (by omega)
  have ht : t.length = 8 := by
    simp only [List.length_cons] at h
    omega
  obtain ⟨b8, b9, b10, b11, b12, b13, b14, b15, t2, rfl⟩ := exists_cons8 t (by omega)
  have ht2 : t2 = [] := by
    simp only [List.length_cons] at ht
    exact List.length_eq_zero.mp (by omega)
  subst ht2
  exact ⟨b0, b1, b2, b3, b4, b5, b6, b7, b8, b9, b10, b11, b12, b13, b14, b15, rfl⟩

/-- Parsing the complete CONNECT-request message (any command byte)
consumes it entirely and yields the expected record; the command byte does
not influence the result. -/
lemma parseConnect_full (cmd : Nat) (addr : Socks5Addr) (port : Nat)
    (out0 : Socks5.ConnectRequest) (hv : ValidAddr addr) (hport : port < 65536) :
    Socks5.ParseConnectRequest (connectMsg cmd addr port) out0
      = (Int.ofNat (connectMsg cmd addr port).length, expectedConnect addr port out0) := by
  have hp : (256 * (port / 256) + port % 256) % 65536 = port := by omega
  cases addr with
  | ipv4 a b c d =>
    have hform : connectMsg cmd (.ipv4 a b c d) port
        = [5, cmd, 0, 1, a, b, c, d, port / 256, port % 256] := by
      simp [connectMsg, addrBytes, addrAtyp]
    rw [hform, parseConnect_ipv4_raw, hp]
    rfl
  | domain name =>
    have hform : connectMsg cmd (.domain name) port
        = 5 :: cmd :: 0 :: 3 :: name.length :: (name ++ [port / 256, port % 256]) := by
      simp [connectMsg, addrBytes, addrAtyp]
    rw [hform, parseConnect_domain_raw, hp]
    have hlen : ((5 : Nat) :: cmd :: 0 :: 3 :: name.length
        :: (name ++ [port / 256, port % 256])).length = 7 + name.length := by
      simp only [List.length_cons, List.length_append, List.length_cons, List.length_nil]
      omega
    rw [hlen]
    rfl
  | ipv6 bs =>
    have hbs : bs.length = 16 := hv.1
    have hform : connectMsg cmd (.ipv6 bs) port
        = 5 :: cmd :: 0 :: 4 :: (bs ++ [port / 256, port % 256]) := by
      simp [connectMsg, addrBytes, addrAtyp]
    rw [hform, parseConnect_ipv6_raw cmd bs _ _ out0 hbs, hp]
    have hlen : ((5 : Nat) :: cmd :: 0 :: 4 :: (bs ++ [port / 256, port % 256])).length
        = 22 := by
      simp only [List.length_cons, List.length_append, List.length_cons, List.length_nil]
      omega
    rw [hlen]
    rfl

/-- Parsing any proper front part of a CONNECT-request message consumes
nothing (waits for more bytes). -/
lemma parseConnect_front (cmd : Nat) (addr : Socks5Addr) (port : Nat)
    (out0 : Socks5.ConnectRequest) (hv : ValidAddr addr) :
    ∀ k, k < (connectMsg cmd addr port).length →
      (Socks5.ParseConnectRequest ((connectMsg cmd addr port).take k) out0).1 = 0 := by
  intro k hk
  cases addr with
  | ipv4 a b c d =>
    have hform : connectMsg cmd (.ipv4 a b c d) port
        = [5, cmd, 0, 1, a, b, c, d, port / 256, port % 256] := by
      simp [connectMsg, addrBytes, addrAtyp]
    rw [hform] at hk ⊢
    have hk10 : k < 10 := by
      simpa using hk
    interval_cases k <;> rfl
  | ipv6 bs =>
    have hbs : bs.length = 16 := hv.1
    obtain ⟨b0, b1, b2, b3, b4, b5, b6, b7, b8, b9, b10, b11, b12, b13, b14, b15, rfl⟩ :=
      exists_cons16 bs hbs
    have hform : connectMsg cmd (.ipv6 [b0, b1, b2, b3, b4, b5, b6, b7, b8, b9,
        b10, b11, b12, b13, b14, b15]) port
        = [5, cmd, 0, 4, b0, b1, b2, b3, b4, b5, b6, b7, b8, b9, b10, b11, b12,
            b13, b14, b15, port / 256, port % 256] := by
      simp [connectMsg, addrBytes, addrAtyp]
    rw [hform] at hk ⊢
    have hk22 : k < 22 := by
      simpa using hk
    interval_cases k <;> rfl
  | domain name =>
    have hform : connectMsg cmd (.domain name) port
        = 5 :: cmd :: 0 :: 3 :: name.length :: (name ++ [port / 256, port % 256]) := by
      simp [connectMsg, addrBytes, addrAtyp]
    rw [hform] at hk ⊢
    have hklen : k < 7 + name.length := by
      have hlx : ((5 : Nat) :: cmd :: 0 :: 3 :: name.length
          :: (name ++ [port / 256, port % 256])).length = 7 + name.length := by
        simp only [List.length_cons, List.length_append, List.length_cons, List.length_nil]
        omega
      rw [hlx] at hk
      exact hk
    by_cases hk5 : k < 5
    · interval_cases k <;> rfl
    · obtain ⟨m, rfl⟩ : ∃ m, k = m + 5 := ⟨k - 5, by omega⟩
      have htk : ((5 : Nat) :: cmd :: 0 :: 3 :: name.length
          :: (name ++ [port / 256, port % 256])).take (m + 5)
          = 5 :: cmd :: 0 :: 3 :: name.length
            :: ((name ++ [port / 256, port % 256]).take m) := rfl
      rw [htk]
      have htklen : ((name ++ [port / 256, port % 256]).take m).length = m := by
        simp only [List.length_take, List.length_append, List.length_cons, List.length_nil]
        omega
      have hxlen : ((5 : Nat) :: cmd :: 0 :: 3 :: name.length
          :: ((name ++ [port / 256, port % 256]).take m)).length = 5 + m := by
        simp only [List.length_cons, htklen]
        omega
      have hg0 : ((5 : Nat) :: cmd :: 0 :: 3 :: name.length
          :: ((name ++ [port / 256, port % 256]).take m)).getD 0 0 = 5 := rfl
      have hg3 : ((5 : Nat) :: cmd :: 0 :: 3 :: name.length
          :: ((name ++ [port / 256, port % 256]).take m)).getD 3 0 = 3 := rfl
      have hg4 : ((5 : Nat) :: cmd :: 0 :: 3 :: name.length
          :: ((name ++ [port / 256, port % 256]).take m)).getD 4 0 = name.length := rfl
      have h4 : ¬ (5 + m < 4) := by omega
      have h5 : ¬ (5 + m < 5) := by omega
      have hshort : 5 + m < 4 + (1 + name.length) + 2 := by omega
      have e5 : (((5 : Nat) ≠ 5)) = False := by decide
      have e31 : (((3 : Nat) = 1)) = False := by decide
      have e33 : (((3 : Nat) = 3)) = True := by decide
      unfold Socks5.ParseConnectRequest
      rw [hxlen]
      simp only [hg0, hg3, hg4, e5, e31, e33, if_false, if_true, h4, h5, hshort]

instance (a : Socks5Addr) : Decidable (ValidAddr a) := by
  cases a <;> (unfold ValidAddr; infer_instance)

/-! ### Claim C5 -/

/-- Claim C5: for every valid SOCKS5 method-selection message and every valid
CONNECT request message, `parse_method_request` and `parse_connect_request`
applied to any proper front part return `consumed = 0`, and applied to the
full message return the full consumed length and the complete parse result. -/
theorem C5_incremental_socks5_parsing :
    (∀ methods : List Nat, methods.length ≤ 255 → (∀ b ∈ methods, b < 256) →
      (∀ k, k < (methodMsg methods).length →
        (Socks5.ParseMethodRequest ((methodMsg methods).take k)).1 = 0)
      ∧ Socks5.ParseMethodRequest (methodMsg methods)
          = (Int.ofNat (methodMsg methods).length, methods.contains 0))
    ∧ (∀ (addr : Socks5Addr) (port : Nat) (out0 : Socks5.ConnectRequest),
      ValidAddr addr → port < 65536 →
      (∀ k, k < (connectMsg 1 addr port).length →
        (Socks5.ParseConnectRequest ((connectMsg 1 addr port).take k) out0).1 = 0)
      ∧ Socks5.ParseConnectRequest (connectMsg 1 addr port) out0
          = (Int.ofNat (connectMsg 1 addr port).length, expectedConnect addr port out0)) := by
  constructor
  · intro methods _ _
    exact ⟨parseMethod_front methods, parseMethod_full methods⟩
  · intro addr port out0 hv hport
    exact ⟨parseConnect_front 1 addr port out0 hv, parseConnect_full 1 addr port out0 hv hport⟩

/-- Witness for C5 on the method message `[05 02 00 01]` and the scenario-A
CONNECT request `[05 01 00 01 C0 A8 01 01 1F 90]` (connect to
`192.168.1.1:8080`). -/
theorem C5_incremental_socks5_parsing_witness :
    ((∀ k, k < (methodMsg [0, 1]).length →
        (Socks5.ParseMethodRequest ((methodMsg [0, 1]).take k)).1 = 0)
      ∧ Socks5.ParseMethodRequest (methodMsg [0, 1])
          = (Int.ofNat (methodMsg [0, 1]).length, [0, 1].contains 0))
    ∧ ((∀ k, k < (connectMsg 1 (.ipv4 192 168 1 1) 8080).length →
        (Socks5.ParseConnectRequest ((connectMsg 1 (.ipv4 192 168 1 1) 8080).take k)
          Socks5.emptyConnectRequest).1 = 0)
      ∧ Socks5.ParseConnectRequest (connectMsg 1 (.ipv4 192 168 1 1) 8080)
          Socks5.emptyConnectRequest
        = (Int.ofNat (connectMsg 1 (.ipv4 192 168 1 1) 8080).length,
            expectedConnect (.ipv4 192 168 1 1) 8080 Socks5.emptyConnectRequest)) :=
  ⟨C5_incremental_socks5_parsing.1 [0, 1] (by decide) (by decide),
   C5_incremental_socks5_parsing.2 (.ipv4 192 168 1 1) 8080 Socks5.emptyConnectRequest
     (by decide) (by decide)⟩

/-! ### Claim C6 -/

/-- Claim C6 counterexample: a complete BIND request (command byte `0x02`)
parses to exactly the same (consumed, result) pair as the identical CONNECT
request — the unsupported command is consumed but NOT reported to the caller;
no component of the result distinguishes it from a successful CONNECT
parse. -/
theorem C6_counterexample :
    Socks5.ParseConnectRequest [5, 2, 0, 1, 127, 0, 0, 1, 0, 80]
        Socks5.emptyConnectRequest
      = Socks5.ParseConnectRequest [5, 1, 0, 1, 127, 0, 0, 1, 0, 80]
        Socks5.emptyConnectRequest
    ∧ (Socks5.ParseConnectRequest [5, 2, 0, 1, 127, 0, 0, 1, 0, 80]
        Socks5.emptyConnectRequest).1 = 10 := by
  constructor
  · rfl
  · rfl

/-- Claim C6 (amended): for every complete SOCKS5 request whose command byte
is not CONNECT, `parse_connect_request` consumes the full request length but
does not report the unsupported command: it returns a pair identical to the
one produced for the same request with the CONNECT command, so the caller
cannot distinguish the two and proceeds as for a CONNECT. -/
theorem C6_command_byte_not_reported (cmd : Nat) (addr : Socks5Addr) (port : Nat)
    (out0 : Socks5.ConnectRequest) (hv : ValidAddr addr) (hport : port < 65536) :
    Socks5.ParseConnectRequest (connectMsg cmd addr port) out0
      = (Int.ofNat (connectMsg cmd addr port).length, expectedConnect addr port out0)
    ∧ Socks5.ParseConnectRequest (connectMsg cmd addr port) out0
      = Socks5.ParseConnectRequest (connectMsg 1 addr port) out0 := by
  have h1 := parseConnect_full cmd addr port out0 hv hport
  have h2 := parseConnect_full 1 addr port out0 hv hport
  refine ⟨h1, ?_⟩
  rw [h1, h2]
  have hlen : (connectMsg cmd addr port).length = (connectMsg 1 addr port).length := by
    simp [connectMsg]
  rw [hlen]

/-- Witness for the amended C6: the BIND (`0x02`) request to `127.0.0.1:80`. -/
theorem C6_command_byte_not_reported_witness :
    Socks5.ParseConnectRequest (connectMsg 2 (.ipv4 127 0 0 1) 80)
        Socks5.emptyConnectRequest
      = (Int.ofNat (connectMsg 2 (.ipv4 127 0 0 1) 80).length,
          expectedConnect (.ipv4 127 0 0 1) 80 Socks5.emptyConnectRequest)
    ∧ Socks5.ParseConnectRequest (connectMsg 2 (.ipv4 127 0 0 1) 80)
        Socks5.emptyConnectRequest
      = Socks5.ParseConnectRequest (connectMsg 1 (.ipv4 127 0 0 1) 80)
        Socks5.emptyConnectRequest :=
  C6_command_byte_not_reported 2 (.ipv4 127 0 0 1) 80 Socks5.emptyConnectRequest
    (by decide) (by decide)

/-! ### Registry lemmas -/

/-- After a map-style insert, lookup of the inserted key finds the new
channel. -/
lemma regFind_regInsert_self : ∀ (reg : List (Nat × Channel)) (id : Nat) (ch : Channel),
    regFind (regInsert reg id ch) id = some ch := by
  intro reg id ch
  induction reg with
  | nil =>
    simp [regFind, regInsert, List.find?]
  | cons hd tl ih =>
    by_cases hhd : hd.1 = id
    · have hfind : ((hd :: tl).find? fun p => p.1 = id).isSome = true := by
        simp [List.find?_cons_of_pos, hhd]
      unfold regInsert
      rw [if_pos hfind]
      simp only [List.map_cons, if_pos hhd]
      simp [regFind, List.find?_cons_of_pos]
    · unfold regInsert
      by_cases htl : (tl.find? fun p => p.1 = id).isSome
      · have hfind : ((hd :: tl).find? fun p => p.1 = id).isSome = true := by
          rw [List.find?_cons_of_neg _ (by simp [hhd])]
          exact htl
        rw [if_pos hfind]
        simp only [List.map_cons, if_neg hhd]
        have ih' : regFind (tl.map fun p => if p.1 = id then (id, ch) else p) id = some ch := by
          have : regInsert tl id ch = tl.map fun p => if p.1 = id then (id, ch) else p := by
            unfold regInsert
            rw [if_pos htl]
          rw [← this]
          exact ih
        unfold regFind at ih' ⊢
        rw [List.find?_cons_of_neg _ (by simp [hhd])]
        exact ih'
      · have hfind : ¬ ((hd :: tl).find? fun p => p.1 = id).isSome = true := by
          rw [List.find?_cons_of_neg _ (by simp [hhd])]
          simpa using htl
        rw [if_neg hfind]
        have ih' : regFind (tl ++ [(id, ch)]) id = some ch := by
          have : regInsert tl id ch = tl ++ [(id, ch)] := by
            unfold regInsert
            rw [if_neg (by simpa using htl)]
          rw [← this]
          exact ih
        unfold regFind at ih' ⊢
        rw [List.cons_append, List.find?_cons_of_neg _ (by simp [hhd])]
        exact ih'

/-- The number of registry entries under a given key. -/
def countKey (reg : List (Nat × Channel)) (id : Nat) : Nat :=
  (reg.filter fun p => p.1 = id).length

/-- The map-style replace keeps the per-key entry count. -/
lemma countKey_map_replace : ∀ (reg : List (Nat × Channel)) (id : Nat) (ch : Channel),
    countKey (reg.map fun p => if p.1 = id then (id, ch) else p) id = countKey reg id := by
  intro reg id ch
  induction reg with
  | nil => rfl
  | cons hd tl ih =>
    by_cases hhd : hd.1 = id
    · simp only [countKey, List.map_cons, if_pos hhd] at ih ⊢
      rw [List.filter_cons, List.filter_cons]
      simp [hhd, ih]
    · simp only [countKey, List.map_cons, if_neg hhd] at ih ⊢
      rw [List.filter_cons, List.filter_cons]
      simp [hhd, ih]

/-- With unique keys, a key that is found occurs exactly once. -/
lemma countKey_eq_one_of_find : ∀ (reg : List (Nat × Channel)) (id : Nat),
    (reg.map Prod.fst).Nodup → (reg.find? fun p => p.1 = id).isSome →
    countKey reg id = 1 := by
  intro reg id
  induction reg with
  | nil => intro _ h; simp [List.find?] at h
  | cons hd tl ih =>
    intro hnodup hfind
    rw [List.map_cons] at hnodup
    have hnd := List.nodup_cons.mp hnodup
    by_cases hhd : hd.1 = id
    · have htl0 : countKey tl id = 0 := by
        unfold countKey
        rw [List.length_eq_zero, List.filter_eq_nil_iff]
        intro q hq hq1
        have hq1' : q.1 = id := by simpa using hq1
        apply hnd.1
        rw [hhd, ← hq1']
        exact List.mem_map.mpr ⟨q, hq, rfl⟩
      unfold countKey
      unfold countKey at htl0
      rw [List.filter_cons]
      simp [hhd, htl0]
    · have hfind2 : (tl.find? fun p => p.1 = id).isSome := by
        rw [List.find?_cons_of_neg _ (by simp [hhd])] at hfind
        exact hfind
      have htl := ih hnd.2 hfind2
      unfold countKey
      unfold countKey at htl
      rw [List.filter_cons]
      simp [hhd, htl]

/-- A key that is not found occurs zero times. -/
lemma countKey_eq_zero_of_find_none (reg : List (Nat × Channel)) (id : Nat)
    (h : (reg.find? fun p => p.1 = id) = none) : countKey reg id = 0 := by
  unfold countKey
  rw [List.length_eq_zero, List.filter_eq_nil_iff]
  intro q hq
  have := List.find?_eq_none.mp h q hq
  simpa using this

/-- After insert, the key occurs exactly once (given the unique-key registry
invariant). -/
lemma countKey_regInsert (reg : List (Nat × Channel)) (id : Nat) (ch : Channel)
    (hnodup : (reg.map Prod.fst).Nodup) : countKey (regInsert reg id ch) id = 1 := by
  unfold regInsert
  by_cases hfind : (reg.find? fun p => p.1 = id).isSome
  · rw [if_pos hfind, countKey_map_replace]
    exact countKey_eq_one_of_find reg id hnodup hfind
  · rw [if_neg hfind]
    unfold countKey
    rw [List.filter_append]
    have h0 : countKey reg id = 0 :=
      countKey_eq_zero_of_find_none reg id
        (Option.not_isSome_iff_eq_none.mp (by simpa using hfind))
    unfold countKey at h0
    rw [List.length_append, h0]
    have h1 : (List.filter (fun p => decide (p.1 = id)) [(id, ch)]) = [(id, ch)] := by
      simp
    rw [h1]
    simp

/-! ### Claim C7 -/

/-- Claim C7: a `CHANNEL_CLOSE` for a channel id absent from the registry
still makes the (running) session send a `CHANNEL_CLOSE_ACK` for that id while
changing nothing else; a `CHANNEL_CLOSE_ACK` for an absent id is silently
ignored — no output and no state change. Both close paths are idempotent. -/
theorem C7_close_idempotent (s : MuxSession) (fr1 fr2 : Frame)
    (hrun : s.running = true)
    (h1 : regFind s.channels fr1.header.channel_id = none)
    (h2 : regFind s.channels fr2.header.channel_id = none) :
    MuxSession.HandleChannelClose s fr1
      = (s, [SessOut.transportSend
          (FrameCodec.BuildChannelCloseAck fr1.header.channel_id)])
    ∧ MuxSession.HandleChannelCloseAck s fr2 = (s, []) := by
  constructor
  · unfold MuxSession.HandleChannelClose
    dsimp only
    rw [h1]
    unfold MuxSession.SendFrame
    rw [hrun]
    simp
  · unfold MuxSession.HandleChannelCloseAck
    dsimp only
    rw [h2]

/-- Witness for C7: the fresh (empty-registry) session acknowledges a close
for unknown channel 3 and ignores a close-ack for unknown channel 4. -/
theorem C7_close_idempotent_witness :
    MuxSession.HandleChannelClose freshSession ⟨⟨6, 0, 3, 0⟩, []⟩
      = (freshSession, [SessOut.transportSend (FrameCodec.BuildChannelCloseAck 3)])
    ∧ MuxSession.HandleChannelCloseAck freshSession ⟨⟨7, 0, 4, 0⟩, []⟩
      = (freshSession, []) :=
  C7_close_idempotent freshSession ⟨⟨6, 0, 3, 0⟩, []⟩ ⟨⟨7, 0, 4, 0⟩, []⟩
    rfl rfl rfl

/-! ### Claim C10 -/

/-- Claim C10: invoking the outbound-connect completion callback on a channel
that is not in state `Connecting` is a no-op for any error code: the channel
(its state, SOCKS5 buffer, windows) is unchanged and nothing is sent. -/
theorem C10_target_connected_noop (ch : Channel) (ec : ErrorCode)
    (h : ch.state ≠ .Connecting) :
    Channel.OnTargetConnected ch ec = (ch, []) := by
  unfold Channel.OnTargetConnected
  rw [if_pos h]

/-- Witness for C10: a relaying channel ignores a late `ConnectionRefused`
completion. -/
theorem C10_target_connected_noop_witness :
    Channel.OnTargetConnected relayingSmallWindow .ConnectionRefused
      = (relayingSmallWindow, []) :=
  C10_target_connected_noop relayingSmallWindow .ConnectionRefused (by decide)

/-! ### Claim C8 -/

/-- When the session is not running, `SendFrame` sends nothing. -/
lemma sendFrame_not_running {s : MuxSession} (h : s.running = false)
    (bytes : List Nat) : s.SendFrame bytes = [] := by
  unfold MuxSession.SendFrame
  rw [h]
  simp

/-- When the session is not running, no channel effect produces a transport
send. -/
lemma runEff_no_transport {s : MuxSession} (h : s.running = false)
    (cid : Nat) (e : ChanEff) :
    ∀ o ∈ MuxSession.runEff s cid e, ∀ b, o ≠ .transportSend b := by
  intro o ho b
  cases e <;>
    simp only [MuxSession.runEff, sendFrame_not_running h] at ho <;>
    first
      | exact absurd ho (List.not_mem_nil o)
      | (rw [List.mem_singleton] at ho; subst ho; intro hcon; cases hcon)

/-- When the session is not running, no effect list produces a transport
send. -/
lemma runEffs_no_transport {s : MuxSession} (h : s.running = false) (cid : Nat) :
    ∀ (effs : List ChanEff), ∀ o ∈ MuxSession.runEffs s cid effs,
      ∀ b, o ≠ .transportSend b := by
  intro effs
  induction effs with
  | nil => intro o ho; exact absurd ho (List.not_mem_nil o)
  | cons e es ih =>
    intro o ho b
    have hsplit : MuxSession.runEffs s cid (e :: es)
        = MuxSession.runEff s cid e ++ MuxSession.runEffs s cid es := rfl
    rw [hsplit] at ho
    rcases List.mem_append.mp ho with h' | h'
    · exact runEff_no_transport h cid e o h' b
    · exact ih o h' b

/-- When the session is not running, dispatching a frame produces no
transport send. -/
lemma DispatchFrame_no_transport (oracle : String → Nat → ErrorCode)
    {s : MuxSession} (h : s.running = false) (fr : Frame) :
    ∀ o ∈ (MuxSession.DispatchFrame oracle s fr).2, ∀ b, o ≠ .transportSend b := by
  unfold MuxSession.DispatchFrame MuxSession.HandleChannelOpen
    MuxSession.HandleChannelRequest MuxSession.HandleData MuxSession.HandleChannelClose
    MuxSession.HandleChannelCloseAck MuxSession.HandlePing MuxSession.HandleWindowUpdate
  dsimp only
  repeat' split
  all_goals intro o ho b
  all_goals
    first
      | exact absurd ho (List.not_mem_nil o)
      | (rw [sendFrame_not_running h] at ho
         exact absurd ho (List.not_mem_nil o))
      | exact runEffs_no_transport h _ _ o ho b
      | (rcases List.mem_append.mp ho with h' | h'
         · exact runEffs_no_transport h _ _ o h' b
         · exact runEffs_no_transport h _ _ o h' b)

/-- When the session is not running, dispatching any frame list produces no
transport send. -/
lemma DispatchFrames_no_transport (oracle : String → Nat → ErrorCode) :
    ∀ (frames : List Frame) (s : MuxSession), s.running = false →
      ∀ o ∈ (MuxSession.DispatchFrames oracle s frames).2,
        ∀ b, o ≠ .transportSend b := by
  intro frames
  induction frames with
  | nil => intro s _ o ho; exact absurd ho (List.not_mem_nil o)
  | cons fr rest ih =>
    intro s h o ho b
    have hsplit : MuxSession.DispatchFrames oracle s (fr :: rest)
        = ((MuxSession.DispatchFrames oracle
              (MuxSession.DispatchFrame oracle s fr).1 rest).1,
            (MuxSession.DispatchFrame oracle s fr).2
              ++ (MuxSession.DispatchFrames oracle
                  (MuxSession.DispatchFrame oracle s fr).1 rest).2) := rfl
    rw [hsplit] at ho
    rcases List.mem_append.mp ho with h' | h'
    · exact DispatchFrame_no_transport oracle h fr o h' b
    · have hrun : (MuxSession.DispatchFrame oracle s fr).1.running = false := by
        rw [DispatchFrame_running, h]
      exact ih _ hrun o h' b

/-- Claim C8 counterexample: after `Shutdown`, a later `CHANNEL_OPEN` frame is
NOT ignored — it creates a fresh channel (state `Requesting`) and inserts it
into the registry, which is therefore not empty. (No frame is sent back, but
the claim's "creates no channel, leaves the registry empty" is false.) -/
theorem C8_counterexample :
    regFind ((MuxSession.OnDataReceived connectAlwaysSucceeds
        (MuxSession.Shutdown freshSession).1 (FrameCodec.Encode 1 0 7 [])).1).channels 7
      = some { Channel.mk0 7 262144 with state := .Requesting }
    ∧ ((MuxSession.OnDataReceived connectAlwaysSucceeds
        (MuxSession.Shutdown freshSession).1 (FrameCodec.Encode 1 0 7 [])).1).channels ≠ []
    ∧ (MuxSession.Shutdown freshSession).1.running = false := by
  decide

/-- Claim C8 (amended): after session shutdown the running flag is false and
every transport send is suppressed, so no frame is ever sent in response to
later inbound bytes; inbound frames are however still dispatched — in
particular a later `CHANNEL_OPEN` still creates a fresh channel (state
`Requesting`) under its id in the registry rather than leaving it empty. -/
theorem C8_shutdown_suppresses_sends_but_dispatches
    (oracle : String → Nat → ErrorCode) (s : MuxSession) (bytes : List Nat)
    (h : s.running = false) :
    (∀ o ∈ (MuxSession.OnDataReceived oracle s bytes).2, ∀ b, o ≠ .transportSend b)
    ∧ (∀ fr : Frame, fr.header.type = 1 →
        regFind ((MuxSession.DispatchFrame oracle s fr).1).channels fr.header.channel_id
          = some { Channel.mk0 fr.header.channel_id s.windowSize
              with state := .Requesting }) := by
  constructor
  · intro o ho b
    unfold MuxSession.OnDataReceived at ho
    exact DispatchFrames_no_transport oracle _ _ (by simpa using h) o ho b
  · intro fr hty
    unfold MuxSession.DispatchFrame
    rw [hty]
    simp only [if_pos rfl]
    unfold MuxSession.HandleChannelOpen
    dsimp only
    exact regFind_regInsert_self s.channels fr.header.channel_id _

/-- Witness for the amended C8: the shut-down fresh session, fed an encoded
`CHANNEL_OPEN(7)`. -/
theorem C8_shutdown_suppresses_sends_but_dispatches_witness :
    (∀ o ∈ (MuxSession.OnDataReceived connectAlwaysSucceeds
        (MuxSession.Shutdown freshSession).1 (FrameCodec.Encode 1 0 7 [])).2,
      ∀ b, o ≠ .transportSend b)
    ∧ (∀ fr : Frame, fr.header.type = 1 →
        regFind ((MuxSession.DispatchFrame connectAlwaysSucceeds
            (MuxSession.Shutdown freshSession).1 fr).1).channels fr.header.channel_id
          = some { Channel.mk0 fr.header.channel_id
              (MuxSession.Shutdown freshSession).1.windowSize
              with state := .Requesting }) :=
  C8_shutdown_suppresses_sends_but_dispatches connectAlwaysSucceeds
    (MuxSession.Shutdown freshSession).1 (FrameCodec.Encode 1 0 7 []) (by decide)

/-! ### Claim C9 -/

/-- Claim C9: a `CHANNEL_OPEN` for an id already present in the registry
destroys the existing channel — the registry assignment runs its destructor,
whose `ForceClose` closes any outbound TCP connection it owns (visible as the
`tcpClose` effect) — and replaces it with a fresh channel for the same id;
afterwards the registry maps that id to exactly one channel, in state
`Requesting`. -/
theorem C9_reopen_replaces_channel (s : MuxSession) (fr : Frame) (old : Channel)
    (hnodup : (s.channels.map Prod.fst).Nodup)
    (hfind : regFind s.channels fr.header.channel_id = some old) :
    regFind ((MuxSession.HandleChannelOpen s fr).1).channels fr.header.channel_id
      = some { Channel.mk0 fr.header.channel_id s.windowSize with state := .Requesting }
    ∧ countKey ((MuxSession.HandleChannelOpen s fr).1).channels fr.header.channel_id = 1
    ∧ (MuxSession.HandleChannelOpen s fr).2
        = MuxSession.runEffs s fr.header.channel_id (Channel.ForceClose old).2
          ++ MuxSession.runEffs s fr.header.channel_id
              [ChanEff.sendOpenAck fr.header.channel_id]
    ∧ (old.state ≠ .Closed → old.target.isSome →
        SessOut.chanEffOut fr.header.channel_id ChanEff.tcpClose
          ∈ (MuxSession.HandleChannelOpen s fr).2) := by
  refine ⟨?_, ?_, ?_, ?_⟩
  · unfold MuxSession.HandleChannelOpen
    dsimp only
    exact regFind_regInsert_self _ _ _
  · unfold MuxSession.HandleChannelOpen
    dsimp only
    exact countKey_regInsert _ _ _ hnodup
  · unfold MuxSession.HandleChannelOpen
    dsimp only
    rw [hfind]
    rfl
  · intro hst htgt
    unfold MuxSession.HandleChannelOpen
    dsimp only
    rw [hfind]
    dsimp only
    apply List.mem_append.mpr
    left
    unfold Channel.ForceClose
    rw [if_neg hst]
    dsimp only
    rw [if_pos htgt]
    show SessOut.chanEffOut fr.header.channel_id ChanEff.tcpClose
      ∈ MuxSession.runEffs s fr.header.channel_id [ChanEff.tcpClose]
    simp [MuxSession.runEffs, MuxSession.runEff]

/-- A running session whose registry already holds a relaying channel with an
outbound TCP connection under id 7. -/
def sessionWithChannel7 : MuxSession :=
  { running := true
    channels := [(7, { Channel.mk0 7 262144 with state := .Relaying, target := some () })]
    codecBuf := []
    windowSize := 262144 }

/-- Witness for C9: reopening id 7 on `sessionWithChannel7`. -/
theorem C9_reopen_replaces_channel_witness :
    regFind ((MuxSession.HandleChannelOpen sessionWithChannel7 ⟨⟨1, 0, 7, 0⟩, []⟩).1).channels 7
      = some { Channel.mk0 7 262144 with state := .Requesting }
    ∧ countKey ((MuxSession.HandleChannelOpen sessionWithChannel7 ⟨⟨1, 0, 7, 0⟩, []⟩).1).channels 7
      = 1
    ∧ (MuxSession.HandleChannelOpen sessionWithChannel7 ⟨⟨1, 0, 7, 0⟩, []⟩).2
        = MuxSession.runEffs sessionWithChannel7 7
            (Channel.ForceClose
              { Channel.mk0 7 262144 with state := .Relaying, target := some () }).2
          ++ MuxSession.runEffs sessionWithChannel7 7 [ChanEff.sendOpenAck 7]
    ∧ (({ Channel.mk0 7 262144 with state := .Relaying, target := some () } : Channel).state
          ≠ .Closed →
        ({ Channel.mk0 7 262144 with state := .Relaying, target := some () } : Channel).target.isSome →
        SessOut.chanEffOut 7 ChanEff.tcpClose
          ∈ (MuxSession.HandleChannelOpen sessionWithChannel7 ⟨⟨1, 0, 7, 0⟩, []⟩).2) :=
  C9_reopen_replaces_channel sessionWithChannel7 ⟨⟨1, 0, 7, 0⟩, []⟩
    { Channel.mk0 7 262144 with state := .Relaying, target := some () }
    (by decide) (by decide)
